import Mathlib

/-!
# drape/vertex_array_buffer.cpp — a shallow embedding

The development embeds `dp::VertexArrayBuffer`, its OpenGL backend
`GLVertexArrayBufferImpl` and the free function `CalculateMappingPart` as
executable Lean definitions, and proves properties of them.

Conventions of the embedding:

* `uint32_t` values are natural numbers; every arithmetic operation that can
  wrap is written with an explicit reduction modulo `2 ^ 32`.
* `ASSERT…`, `CHECK` and `assert` are checked (the debug configuration): a
  violated assertion aborts the call, which is the result `none`.
* A raw pointer `void const *` to a block of elements is the list of the
  elements stored there; a buffer element is one natural number.
-/

namespace dp

/-! ## Machine integers -/

/-- The number of values of a `uint32_t`. -/
def UINT32_SIZE : Nat := 4294967296

/-- Value of `std::numeric_limits<uint32_t>::max()`. -/
def UINT32_MAX : Nat := 4294967295

/-- Addition of two `uint32_t` values (wraps around). -/
def u32add (a b : Nat) : Nat := (a + b) % UINT32_SIZE

/-- Subtraction of two `uint32_t` values (wraps around). -/
def u32sub (a b : Nat) : Nat := (a + UINT32_SIZE - b % UINT32_SIZE) % UINT32_SIZE

/-! ## Mutation requests (drape/attribute_buffer_mutator.hpp) -/

/-- Counterpart of `dp::MutateRegion`: offset and count of a partial write, both `uint32_t`. -/
structure MutateRegion where
  m_offset : Nat
  m_count : Nat
  deriving DecidableEq, Repr

/-- Counterpart of `dp::MutateNode`: a region and the block `m_data` points to. -/
structure MutateNode where
  m_region : MutateRegion
  m_data : List Nat
  deriving DecidableEq, Repr

/-- The `for` loop of `CalculateMappingPart`, carrying `(minOffset, maxOffset)`. -/
def CalculateMappingPart.loop : List MutateNode → Nat × Nat → Option (Nat × Nat)
  | [], acc => some acc
  | node :: rest, (minOffset, maxOffset) =>
    -- ASSERT_GREATER(node.m_region.m_count, 0, ());
    if node.m_region.m_count > 0 then
      let minOffset1 :=
        if node.m_region.m_offset < minOffset then node.m_region.m_offset else minOffset
      let endOffset := u32add node.m_region.m_offset node.m_region.m_count
      let maxOffset1 := if endOffset > maxOffset then endOffset else maxOffset
      CalculateMappingPart.loop rest (minOffset1, maxOffset1)
    else none

/-- Counterpart of `CalculateMappingPart` (vertex_array_buffer.cpp, lines 17-33). -/
def CalculateMappingPart (nodes : List MutateNode) : Option (Nat × Nat) :=
  match CalculateMappingPart.loop nodes (UINT32_MAX, 0) with
  | none => none
  | some (minOffset, maxOffset) =>
    -- ASSERT_LESS(minOffset, maxOffset, ());
    if minOffset < maxOffset then some (minOffset, u32sub maxOffset minOffset) else none

/-! ## Vertex layouts (drape/binding_info.hpp) -/

/-- Modelled from the spec: `dp::BindingDecl` (drape/binding_info.hpp is not part of the
sources), one attribute of a layout: "(attribute name, component count, component type,
stride, byte offset)". -/
structure BindingDecl where
  m_attributeName : String
  m_componentCount : Nat
  m_componentType : Nat
  m_stride : Nat
  m_offset : Nat
  deriving DecidableEq, Repr

/-- Modelled from the spec: `dp::BindingInfo` (drape/binding_info.hpp is not part of the
sources), the vertex layout key: "ordered list of (attribute name, component count,
component type, stride, byte offset) plus a dynamic/static flag", together with "the
element size implied by the key". -/
structure BindingInfo where
  m_bindings : List BindingDecl
  m_isDynamic : Bool
  m_elementSize : Nat
  deriving DecidableEq, Repr

namespace BindingInfo

def IsDynamic (b : BindingInfo) : Bool := b.m_isDynamic

def GetElementSize (b : BindingInfo) : Nat := b.m_elementSize

/-- Numeric code of one declaration, used only to order layouts. -/
def declCode (d : BindingDecl) : List Nat :=
  [d.m_componentCount, d.m_componentType, d.m_stride, d.m_offset, d.m_attributeName.length]
    ++ d.m_attributeName.toList.map Char.toNat

/-- Numeric code of a layout, used only to order layouts. -/
def code (b : BindingInfo) : List Nat :=
  [if b.m_isDynamic then 1 else 0, b.m_elementSize, b.m_bindings.length]
    ++ (b.m_bindings.map declCode).flatten

/-- Lexicographic comparison of two codes. -/
def lexLess : List Nat → List Nat → Bool
  | [], [] => false
  | [], _ :: _ => true
  | _ :: _, [] => false
  | a :: as, b :: bs => if a < b then true else if b < a then false else lexLess as bs

/-- Modelled from the spec: `BindingInfo::operator<`, "equality/ordering by structural
content". -/
def less (a b : BindingInfo) : Bool := lexLess a.code b.code

end BindingInfo

/-! ## Growable buffers (drape/data_buffer.hpp, drape/index_buffer.hpp) -/

/-- Role of a GPU buffer, `GPUBuffer::Target`. -/
inductive Target where
  | ElementBuffer
  | IndexBuffer
  deriving DecidableEq, Repr

/-- Reading `count` elements through a raw pointer to the block `data`; an element past the
end of the block (undefined behaviour in C++) reads as `0`. -/
def readRaw (data : List Nat) (count : Nat) : List Nat :=
  (List.range count).map (fun i => data.getD i 0)

/-- Overwriting the elements of `memory` from position `offset` on with `data`. -/
def writeAt (memory : List Nat) (offset : Nat) (data : List Nat) : List Nat :=
  memory.take offset ++ data ++ memory.drop (offset + data.length)

/-- Modelled from the spec: `dp::DataBuffer` (drape/data_buffer.hpp is not part of the
sources), the growable GPU buffer: "a CPU-shadowed, capacity-tracked buffer of fixed-size
elements". `m_memory` holds the `capacity` elements of the storage, `m_currentSize` the
count of elements already written, `m_target` the role of the GPU-side buffer once it is
materialized, and `m_gpuAllocations` counts the GPU-side allocations made for the buffer. -/
structure DataBuffer where
  m_elementSize : Nat
  m_memory : List Nat
  m_currentSize : Nat
  m_target : Option Target
  m_gpuAllocations : Nat
  deriving DecidableEq, Repr

namespace DataBuffer

/-- Constructor `DataBuffer(elementSize, capacity)`: nothing written, not materialized. -/
def create (elementSize capacity : Nat) : DataBuffer :=
  { m_elementSize := elementSize, m_memory := List.replicate capacity 0, m_currentSize := 0,
    m_target := none, m_gpuAllocations := 0 }

def GetCapacity (b : DataBuffer) : Nat := b.m_memory.length

def GetCurrentSize (b : DataBuffer) : Nat := b.m_currentSize

def GetAvailableSize (b : DataBuffer) : Nat := b.GetCapacity - b.m_currentSize

/-- The elements written so far. -/
def content (b : DataBuffer) : List Nat := b.m_memory.take b.m_currentSize

/-- Modelled from the spec: `MaterializeOnDevice(role)`, "allocates a GPU-side buffer of
`capacity` elements tagged with a role (vertex data vs. index data) and copies the
CPU-shadowed contents". -/
def MoveToGPU (b : DataBuffer) (target : Target) : DataBuffer :=
  { b with m_target := some target, m_gpuAllocations := b.m_gpuAllocations + 1 }

/-- Modelled from the spec: `UploadAppend(data, count)`, "appends `count` elements starting
at `current size`; requires `count ≤ capacity − current size` (fatal precondition violation
otherwise); advances current size". -/
def UploadData (b : DataBuffer) (data : List Nat) (count : Nat) : Option DataBuffer :=
  if count ≤ b.GetAvailableSize then
    some { b with m_memory := writeAt b.m_memory b.m_currentSize (readRaw data count),
                  m_currentSize := b.m_currentSize + count }
  else none

/-- Modelled from the spec: `IndexBuffer::UpdateData(data, size)`, "overwrite the index
buffer's full content via the new data (does not go through the append path — it is a full
replacement, current size reset to the mutator's count)": the write cursor goes back to the
start and `size` elements are uploaded from there. -/
def UpdateData (b : DataBuffer) (data : List Nat) (size : Nat) : Option DataBuffer :=
  UploadData { b with m_currentSize := 0 } data size

end DataBuffer

/-- Modelled from the spec: `dp::DataBufferMapper` (drape/data_buffer.hpp is not part of the
sources), the `ScopedMap(offset, count)` of a buffer: the mapped window starts at `m_offset`
and has `m_count` elements. -/
structure DataBufferMapper where
  m_buffer : DataBuffer
  m_offset : Nat
  m_count : Nat
  deriving DecidableEq, Repr

namespace DataBufferMapper

/-- Modelled from the spec: `ScopedMap(byteOffset, byteCount) → Mapper`, "maps a sub-region
of the GPU buffer for direct writes": the window has to lie inside the buffer. -/
def create (buffer : DataBuffer) (elementOffset elementCount : Nat) : Option DataBufferMapper :=
  if elementOffset + elementCount ≤ buffer.GetCapacity then
    some { m_buffer := buffer, m_offset := elementOffset, m_count := elementCount }
  else none

/-- Modelled from the spec: a write through the mapper, "all writes inside the scope must
stay within the mapped region (offsets given relative to region start)". -/
def UpdateData (m : DataBufferMapper) (data : List Nat) (elementOffset elementCount : Nat) :
    Option DataBufferMapper :=
  if elementOffset + elementCount ≤ m.m_count then
    some { m with m_buffer :=
      { m.m_buffer with
        m_memory := writeAt m.m_buffer.m_memory (m.m_offset + elementOffset)
          (readRaw data elementCount) } }
  else none

/-- The destructor: "on release, unmaps"; the buffer keeps what was written. -/
def release (m : DataBufferMapper) : DataBuffer := m.m_buffer

end DataBufferMapper

/-! ## Buffers keyed by layout (`BuffersMap`, a `std::map`) -/

/-- Counterpart of `BuffersMap = std::map<BindingInfo, drape_ptr<DataBuffer>>`: the pairs in
iteration order. -/
abbrev BuffersMap := List (BindingInfo × DataBuffer)

namespace BuffersMap

/-- Counterpart of `std::map::find`. -/
def find (m : BuffersMap) (key : BindingInfo) : Option DataBuffer :=
  match m with
  | [] => none
  | (k, b) :: rest => if k = key then some b else find rest key

/-- Counterpart of `std::map::insert` of a key that is not in the map: the pair goes in front
of the first greater key. -/
def insert (m : BuffersMap) (key : BindingInfo) (buffer : DataBuffer) : BuffersMap :=
  match m with
  | [] => [(key, buffer)]
  | (k, b) :: rest =>
    if key.less k then (key, buffer) :: (k, b) :: rest else (k, b) :: insert rest key buffer

/-- Writing through the `ref_ptr` of the buffer stored under `key`. -/
def update (m : BuffersMap) (key : BindingInfo) (buffer : DataBuffer) : BuffersMap :=
  match m with
  | [] => []
  | (k, b) :: rest =>
    if k = key then (k, buffer) :: rest else (k, b) :: update rest key buffer

end BuffersMap

/-! ## External capabilities -/

/-- Counterpart of `dp::ApiVersion`; `Invalid` stands for every value the code does not
recognize. -/
inductive ApiVersion where
  | Invalid
  | OpenGLES2
  | OpenGLES3
  | Metal
  deriving DecidableEq, Repr

/-- Counterpart of `dp::GraphicsContext`, of which only `GetApiVersion()` is used. -/
structure GraphicsContext where
  m_apiVersion : ApiVersion
  deriving DecidableEq, Repr

def GraphicsContext.GetApiVersion (context : GraphicsContext) : ApiVersion :=
  context.m_apiVersion

/-- Answers of the collaborators that are not part of the sources, as seen by one call:
`vaoSupported` is `GLFunctions::ExtensionsList.IsSupported(GLExtensionsList::VertexArrayObject)`,
`genVertexArray` the handle the next `GLFunctions::glGenVertexArray()` returns,
`isAdreno200Device` is `SupportManager::Instance().IsAdreno200Device()` and `sizeOfIndex`
is `dp::IndexStorage::SizeOfIndex()`. -/
structure Platform where
  vaoSupported : Bool
  genVertexArray : Int
  isAdreno200Device : Bool
  sizeOfIndex : Nat
  deriving DecidableEq, Repr

/-- Modelled from the spec: the GPU program, "consumed as an opaque GPU program capability
exposing attribute-location lookup". `m_address` is the address of the object, which is
what `ref_ptr::get()` returns. -/
structure GpuProgram where
  m_address : Nat
  m_attributes : List (String × Int)
  deriving DecidableEq, Repr

/-- Attribute lookup `AttributeLocation(name) → location | invalid`; invalid is `-1`. -/
def GpuProgram.GetAttributeLocation (program : GpuProgram) (name : String) : Int :=
  match program.m_attributes.lookup name with
  | some location => location
  | none => -1

/-- Result of `get()` on a `ref_ptr<GpuProgram>`: the address, `none` for a null pointer. -/
def refGet (program : Option GpuProgram) : Option Nat := program.map (fun p => p.m_address)

/-- Counterpart of `dp::IndicesRange`. -/
structure IndicesRange where
  m_idxStart : Nat
  m_idxCount : Nat
  deriving DecidableEq, Repr

/-! ## The OpenGL backend (`GLVertexArrayBufferImpl`, lines 35-117) -/

/-- Counterpart of `GLVertexArrayBufferImpl`: `int m_VAO = 0; ref_ptr<GLGpuProgram> m_program;`. -/
structure GLVertexArrayBufferImpl where
  m_VAO : Int
  m_program : Option GpuProgram
  deriving DecidableEq, Repr

namespace GLVertexArrayBufferImpl

/-- Counterpart of `GLVertexArrayBufferImpl::Build` (lines 50-64): the returned flag and the
backend afterwards. -/
def Build (pf : Platform) (impl : GLVertexArrayBufferImpl) (program : Option GpuProgram) :
    Bool × GLVertexArrayBufferImpl :=
  if impl.m_VAO ≠ 0 ∧ refGet impl.m_program = refGet program then
    (false, impl)
  else
    let impl1 : GLVertexArrayBufferImpl := { impl with m_program := program }
    if !pf.vaoSupported then
      (false, impl1)
    else
      -- glDeleteVertexArray(m_VAO) if m_VAO != 0, then m_VAO = glGenVertexArray()
      (true, { impl1 with m_VAO := pf.genVertexArray })

/-- Counterpart of `GLVertexArrayBufferImpl::Bind` (lines 66-75). -/
def Bind (pf : Platform) (impl : GLVertexArrayBufferImpl) : Option Bool :=
  if pf.vaoSupported then
    -- ASSERT(m_VAO != 0, ("You need to call Build method before bind it and render."));
    if impl.m_VAO ≠ 0 then some true else none
  else some false

/-- Counterpart of `GLVertexArrayBufferImpl::Unbind` (lines 77-81); it cannot fail. -/
def Unbind (_pf : Platform) (_impl : GLVertexArrayBufferImpl) : Option Unit := some ()

/-- One pass of the inner loop of `BindBuffers`: the location of the attribute is looked up
through `m_program` and `assert(attributeLocation != -1)` is checked. -/
def bindDecl (impl : GLVertexArrayBufferImpl) (decl : BindingDecl) : Option Unit :=
  match impl.m_program with
  | none => none
  | some program =>
    if program.GetAttributeLocation decl.m_attributeName ≠ -1 then some () else none

/-- The inner loop of `BindBuffers` over the declarations of one layout. -/
def bindDecls (impl : GLVertexArrayBufferImpl) : List BindingDecl → Option Unit
  | [] => some ()
  | decl :: rest =>
    match bindDecl impl decl with
    | none => none
    | some () => bindDecls impl rest

/-- Counterpart of `GLVertexArrayBufferImpl::BindBuffers` (lines 83-102). -/
def BindBuffers (impl : GLVertexArrayBufferImpl) : BuffersMap → Option Unit
  | [] => some ()
  | (binding, _buffer) :: rest =>
    match bindDecls impl binding.m_bindings with
    | none => none
    | some () => BindBuffers impl rest

/-- Counterpart of `GLVertexArrayBufferImpl::RenderRange` (lines 104-112). -/
def RenderRange (impl : GLVertexArrayBufferImpl) (_context : GraphicsContext)
    (_drawAsLine : Bool) (_range : IndicesRange) : Option Unit :=
  -- ASSERT(m_program != nullptr, ("Build must be called before RenderRange"));
  if impl.m_program ≠ none then some () else none

end GLVertexArrayBufferImpl

/-! ## Mutators (drape/index_buffer_mutator.hpp, drape/attribute_buffer_mutator.hpp) -/

/-- Modelled from the spec: `dp::IndexBufferMutator` (not part of the sources), "an optional
full index-buffer replacement (new data + new capacity)": `m_buffer` is the index storage,
whose length is the capacity, and `m_activeSize` the count of indices to take from it. -/
structure IndexBufferMutator where
  m_buffer : List Nat
  m_activeSize : Nat
  deriving DecidableEq, Repr

namespace IndexBufferMutator

def GetIndexes (m : IndexBufferMutator) : List Nat := m.m_buffer

def GetIndexCount (m : IndexBufferMutator) : Nat := m.m_activeSize

def GetCapacity (m : IndexBufferMutator) : Nat := m.m_buffer.length

end IndexBufferMutator

/-- Modelled from the spec: `dp::AttributeBufferMutator` (not part of the sources), "a
mapping VertexLayoutKey → ordered list of partial-write regions", in iteration order. -/
structure AttributeBufferMutator where
  m_data : List (BindingInfo × List MutateNode)
  deriving DecidableEq, Repr

def AttributeBufferMutator.GetMutateData (m : AttributeBufferMutator) :
    List (BindingInfo × List MutateNode) := m.m_data

/-! ## The orchestrator (`VertexArrayBuffer`, lines 120-421) -/

/-- Counterpart of `dp::VertexArrayBuffer`. `m_indexBuffer` is set by the constructor and
reset only by the destructor, so the pointer is never null while the object is in use and
the assertions `m_indexBuffer != nullptr` hold. `m_impl` is `none` for a null pointer. -/
structure VertexArrayBuffer where
  m_dataBufferSize : Nat
  m_indexBuffer : DataBuffer
  m_staticBuffers : BuffersMap
  m_dynamicBuffers : BuffersMap
  m_impl : Option GLVertexArrayBufferImpl
  m_moveToGpuOnBuild : Bool
  m_isPreflushed : Bool
  m_isChanged : Bool
  deriving DecidableEq, Repr

/-- A call the orchestrator issues to its backend or to its index buffer while rendering. -/
inductive Call where
  /-- Call of `m_impl->Bind()`, with the value it returned. -/
  | Bind (usedCachedState : Bool)
  /-- Call of `m_impl->BindBuffers(buffers)`. -/
  | BindBuffers (buffers : BuffersMap)
  /-- Call of `GetIndexBuffer()->Bind()`. -/
  | IndexBufferBind
  /-- Call of `m_impl->RenderRange(context, drawAsLine, range)`. -/
  | RenderRange (drawAsLine : Bool) (range : IndicesRange)
  /-- Call of `m_impl->Unbind()`. -/
  | Unbind
  deriving DecidableEq, Repr

namespace VertexArrayBuffer

/-- Counterpart of the constructor (lines 120-128). -/
def create (pf : Platform) (indexBufferSize dataBufferSize : Nat) : VertexArrayBuffer :=
  { m_dataBufferSize := dataBufferSize,
    m_indexBuffer := DataBuffer.create pf.sizeOfIndex indexBufferSize,
    m_staticBuffers := [], m_dynamicBuffers := [], m_impl := none,
    m_moveToGpuOnBuild := pf.isAdreno200Device, m_isPreflushed := false, m_isChanged := false }

/-- Both loops of `PreflushImpl` over a buffer map: every buffer is moved to the GPU. -/
def moveAllToGPU (buffers : BuffersMap) : BuffersMap :=
  buffers.map (fun kb => (kb.1, kb.2.MoveToGPU Target.ElementBuffer))

/-- Counterpart of `VertexArrayBuffer::PreflushImpl` (lines 144-168). -/
def PreflushImpl (s : VertexArrayBuffer) (_context : GraphicsContext) :
    Option VertexArrayBuffer :=
  -- ASSERT(!m_isPreflushed, ());
  if !s.m_isPreflushed then
    some { s with
      m_staticBuffers := moveAllToGPU s.m_staticBuffers,
      m_dynamicBuffers := moveAllToGPU s.m_dynamicBuffers,
      m_indexBuffer := s.m_indexBuffer.MoveToGPU Target.IndexBuffer,
      m_isPreflushed := true }
  else none

/-- Counterpart of `VertexArrayBuffer::Preflush` (lines 138-142). -/
def Preflush (s : VertexArrayBuffer) (context : GraphicsContext) : Option VertexArrayBuffer :=
  if !s.m_moveToGpuOnBuild then s.PreflushImpl context else some s

/-- Counterpart of `VertexArrayBuffer::GetIndexBuffer` (lines 416-420). -/
def GetIndexBuffer (s : VertexArrayBuffer) : DataBuffer := s.m_indexBuffer

/-- Counterpart of `VertexArrayBuffer::GetIndexCount` (line 337). -/
def GetIndexCount (s : VertexArrayBuffer) : Nat := s.GetIndexBuffer.GetCurrentSize

/-- Counterpart of `VertexArrayBuffer::Bind` (lines 394-398). -/
def Bind (pf : Platform) (s : VertexArrayBuffer) : Option Bool :=
  match s.m_impl with
  | none => none  -- CHECK(m_impl != nullptr, ());
  | some impl => impl.Bind pf

/-- Counterpart of `VertexArrayBuffer::Unbind` (lines 400-404). -/
def Unbind (pf : Platform) (s : VertexArrayBuffer) : Option Unit :=
  match s.m_impl with
  | none => none  -- CHECK(m_impl != nullptr, ());
  | some impl => impl.Unbind pf

/-- Counterpart of `VertexArrayBuffer::BindBuffers` (lines 410-414). -/
def BindBuffers (s : VertexArrayBuffer) (buffers : BuffersMap) : Option Unit :=
  match s.m_impl with
  | none => none  -- CHECK(m_impl != nullptr, ());
  | some impl => impl.BindBuffers buffers

/-- Counterpart of `VertexArrayBuffer::BindStaticBuffers` (line 406). -/
def BindStaticBuffers (s : VertexArrayBuffer) : Option Unit := s.BindBuffers s.m_staticBuffers

/-- Counterpart of `VertexArrayBuffer::BindDynamicBuffers` (line 408). -/
def BindDynamicBuffers (s : VertexArrayBuffer) : Option Unit :=
  s.BindBuffers s.m_dynamicBuffers

/-- Counterpart of `VertexArrayBuffer::RenderRange` (lines 175-193): the calls issued, in
order, or `none` when an assertion stops the call. -/
def RenderRange (pf : Platform) (s : VertexArrayBuffer) (context : GraphicsContext)
    (drawAsLine : Bool) (range : IndicesRange) : Option (List Call) :=
  if !(s.m_staticBuffers.isEmpty && s.m_dynamicBuffers.isEmpty) && decide (s.GetIndexCount > 0)
  then
    match s.Bind pf with
    | none => none
    | some usedCachedState =>
      match (if !usedCachedState then s.BindStaticBuffers else some ()) with
      | none => none
      | some () =>
        match s.BindDynamicBuffers with
        | none => none
        | some () =>
          match s.m_impl with
          | none => none  -- CHECK(m_impl != nullptr, ());
          | some impl =>
            match impl.RenderRange context drawAsLine range with
            | none => none
            | some () =>
              match s.Unbind pf with
              | none => none
              | some () =>
                some ([Call.Bind usedCachedState]
                  ++ (if !usedCachedState then [Call.BindBuffers s.m_staticBuffers] else [])
                  ++ [Call.BindBuffers s.m_dynamicBuffers, Call.IndexBufferBind,
                      Call.RenderRange drawAsLine range, Call.Unbind])
  else some []

/-- Counterpart of `VertexArrayBuffer::Render` (lines 170-173). -/
def Render (pf : Platform) (s : VertexArrayBuffer) (context : GraphicsContext)
    (drawAsLine : Bool) : Option (List Call) :=
  s.RenderRange pf context drawAsLine ⟨0, s.GetIndexBuffer.GetCurrentSize⟩

/-- The lazy construction of the backend in `Build` (lines 200-217). The target is not
`OMIM_OS_IPHONE`: for `Metal` the pointer stays as it is. -/
def createImpl (s : VertexArrayBuffer) (context : GraphicsContext) : Option VertexArrayBuffer :=
  match s.m_impl with
  | some _ => some s
  | none =>
    match context.GetApiVersion with
    | ApiVersion.OpenGLES2 => some { s with m_impl := some { m_VAO := 0, m_program := none } }
    | ApiVersion.OpenGLES3 => some { s with m_impl := some { m_VAO := 0, m_program := none } }
    | ApiVersion.Metal => some s
    | ApiVersion.Invalid => none  -- CHECK(false, ("Unsupported API version."));

/-- Counterpart of `VertexArrayBuffer::Build` (lines 195-228). -/
def Build (pf : Platform) (s : VertexArrayBuffer) (context : GraphicsContext)
    (program : Option GpuProgram) : Option VertexArrayBuffer :=
  match (if s.m_moveToGpuOnBuild && !s.m_isPreflushed then s.PreflushImpl context
         else some s) with
  | none => none
  | some s1 =>
    match s1.createImpl context with
    | none => none
    | some s2 =>
      if s2.m_staticBuffers.isEmpty then some s2
      else
        match s2.m_impl with
        | none => none  -- m_impl->Build on a null pointer
        | some impl =>
          let s3 : VertexArrayBuffer := { s2 with m_impl := some (impl.Build pf program).2 }
          if !(impl.Build pf program).1 then some s3
          else
            match s3.Bind pf with
            | none => none
            | some _ =>
              match s3.BindStaticBuffers with
              | none => none
              | some () =>
                match s3.Unbind pf with
                | none => none
                | some () => some s3

/-- Counterpart of `VertexArrayBuffer::GetOrCreateBuffer` (lines 275-295) on one of the two
maps: the map afterwards. -/
def GetOrCreateBuffer (dataBufferSize : Nat) (buffers : BuffersMap) (bindingInfo : BindingInfo) :
    BuffersMap :=
  match BuffersMap.find buffers bindingInfo with
  | none =>
    BuffersMap.insert buffers bindingInfo
      (DataBuffer.create bindingInfo.GetElementSize dataBufferSize)
  | some _ => buffers

/-- The last line of `UploadData` on the map the layout belongs to: the buffer under
`bindingInfo` receives the data. -/
def uploadInto (buffers : BuffersMap) (bindingInfo : BindingInfo) (data : List Nat)
    (count : Nat) : Option BuffersMap :=
  match BuffersMap.find buffers bindingInfo with
  | none => none
  | some buffer =>
    match buffer.UploadData data count with
    | none => none
    | some buffer1 => some (BuffersMap.update buffers bindingInfo buffer1)

/-- Counterpart of `VertexArrayBuffer::UploadData` (lines 230-242). -/
def UploadData (s : VertexArrayBuffer) (bindingInfo : BindingInfo) (data : List Nat)
    (count : Nat) : Option VertexArrayBuffer :=
  let isChanged := if count > 0 then true else s.m_isChanged
  if !bindingInfo.IsDynamic then
    match uploadInto (GetOrCreateBuffer s.m_dataBufferSize s.m_staticBuffers bindingInfo)
        bindingInfo data count with
    | none => none
    | some buffers => some { s with m_staticBuffers := buffers, m_isChanged := isChanged }
  else
    match uploadInto (GetOrCreateBuffer s.m_dataBufferSize s.m_dynamicBuffers bindingInfo)
        bindingInfo data count with
    | none => none
    | some buffers => some { s with m_dynamicBuffers := buffers, m_isChanged := isChanged }

/-- Counterpart of `VertexArrayBuffer::UploadIndexes` (lines 339-343). -/
def UploadIndexes (s : VertexArrayBuffer) (data : List Nat) (count : Nat) :
    Option VertexArrayBuffer :=
  -- ASSERT_LESS_OR_EQUAL(count, GetIndexBuffer()->GetAvailableSize(), ());
  if count ≤ s.GetIndexBuffer.GetAvailableSize then
    match s.m_indexBuffer.UploadData data count with
    | none => none
    | some buffer => some { s with m_indexBuffer := buffer }
  else none

/-- Counterpart of `VertexArrayBuffer::GetAvailableVertexCount` (lines 302-315), with the
`DEBUG` block. -/
def GetAvailableVertexCount (s : VertexArrayBuffer) : Option Nat :=
  match s.m_staticBuffers with
  | [] => some s.m_dataBufferSize
  | (_, first) :: _ =>
    -- ASSERT_EQUAL(prev, it->second->GetBuffer()->GetAvailableSize(), ());
    if s.m_staticBuffers.all (fun kb => first.GetAvailableSize = kb.2.GetAvailableSize) then
      some first.GetAvailableSize
    else none

/-- Counterpart of `VertexArrayBuffer::GetStartIndexValue` (lines 317-330), with the `DEBUG`
block. -/
def GetStartIndexValue (s : VertexArrayBuffer) : Option Nat :=
  match s.m_staticBuffers with
  | [] => some 0
  | (_, first) :: _ =>
    -- ASSERT(prev == it->second->GetBuffer()->GetCurrentSize(), ());
    if s.m_staticBuffers.all (fun kb => first.GetCurrentSize = kb.2.GetCurrentSize) then
      some first.GetCurrentSize
    else none

/-- The writes `ApplyMutation` issues to the mapper for one layout (lines 382-388): for every
node the pair of the offset relative to the start of the mapping and the count. -/
def mapperWrites (nodes : List MutateNode) (start : Nat) : List (Nat × Nat) :=
  nodes.map (fun node => (u32sub node.m_region.m_offset start, node.m_region.m_count))

/-- The inner loop of `ApplyMutation` (lines 382-388) on an open mapper. -/
def applyNodes (mapper : DataBufferMapper) (nodes : List MutateNode) (start : Nat) :
    Option DataBufferMapper :=
  match nodes with
  | [] => some mapper
  | node :: rest =>
    -- ASSERT_GREATER(node.m_region.m_count, 0, ());
    if node.m_region.m_count > 0 then
      match mapper.UpdateData node.m_data (u32sub node.m_region.m_offset start)
          node.m_region.m_count with
      | none => none
      | some mapper1 => applyNodes mapper1 rest start
    else none

/-- The body of the outer loop of `ApplyMutation` (lines 377-388) on the buffer of the
layout: one mapping over the covering range, the writes, and the release of the mapping. -/
def mutateBuffer (buffer : DataBuffer) (nodes : List MutateNode) : Option DataBuffer :=
  match CalculateMappingPart nodes with
  | none => none
  | some offsets =>
    match DataBufferMapper.create buffer offsets.1 offsets.2 with
    | none => none
    | some mapper =>
      match applyNodes mapper nodes offsets.1 with
      | none => none
      | some mapper1 => some mapper1.release

/-- The outer loop of `ApplyMutation` (lines 370-389) over the data of the attribute
mutator: the dynamic buffers afterwards. -/
def mutateBuffers (buffers : BuffersMap) : List (BindingInfo × List MutateNode) →
    Option BuffersMap
  | [] => some buffers
  | (key, nodes) :: rest =>
    if nodes.isEmpty then mutateBuffers buffers rest
    else
      match BuffersMap.find buffers key with
      | none => none  -- ASSERT(buffer != nullptr, ());
      | some buffer =>
        match mutateBuffer buffer nodes with
        | none => none
        | some buffer1 => mutateBuffers (BuffersMap.update buffers key buffer1) rest

/-- The index part of `ApplyMutation` (lines 353-362): the index buffer afterwards. -/
def mutateIndexBuffer (pf : Platform) (indexBuffer : DataBuffer)
    (indexMutator : IndexBufferMutator) : Option DataBuffer :=
  let indexBuffer1 :=
    if indexMutator.GetCapacity > indexBuffer.GetCapacity then
      (DataBuffer.create pf.sizeOfIndex indexMutator.GetCapacity).MoveToGPU Target.IndexBuffer
    else indexBuffer
  indexBuffer1.UpdateData indexMutator.GetIndexes indexMutator.GetIndexCount

/-- Counterpart of `VertexArrayBuffer::ApplyMutation` (lines 345-392). -/
def ApplyMutation (pf : Platform) (s : VertexArrayBuffer) (_context : GraphicsContext)
    (indexMutator : Option IndexBufferMutator)
    (attrMutator : Option AttributeBufferMutator) : Option VertexArrayBuffer :=
  match s.Bind pf with
  | none => none
  | some _ =>
    match (match indexMutator with
           | none => some s.m_indexBuffer
           | some mutator => mutateIndexBuffer pf s.m_indexBuffer mutator) with
    | none => none
    | some indexBuffer =>
      let s1 : VertexArrayBuffer := { s with m_indexBuffer := indexBuffer }
      match attrMutator with
      | none =>
        match s1.Unbind pf with
        | none => none
        | some () => some s1
      | some mutator =>
        match mutateBuffers s1.m_dynamicBuffers mutator.GetMutateData with
        | none => none
        | some buffers =>
          let s2 : VertexArrayBuffer := { s1 with m_dynamicBuffers := buffers }
          match s2.Unbind pf with
          | none => none
          | some () => some s2

end VertexArrayBuffer

/-! ## The reference for batched partial writes -/

/-- A sequence of `Build` calls, each with its own platform answers, context and program. -/
def runBuilds (s : VertexArrayBuffer) :
    List (Platform × GraphicsContext × Option GpuProgram) → Option VertexArrayBuffer
  | [] => some s
  | (pf, context, program) :: rest =>
    match s.Build pf context program with
    | none => none
    | some s1 => runBuilds s1 rest

/-- One round of uploads: `UploadData` with the same `count` for every pair of a layout and
its data, in list order. -/
def uploadRound (s : VertexArrayBuffer) (count : Nat) :
    List (BindingInfo × List Nat) → Option VertexArrayBuffer
  | [] => some s
  | (bindingInfo, data) :: rest =>
    match s.UploadData bindingInfo data count with
    | none => none
    | some s1 => uploadRound s1 count rest

/-- A sequence of rounds of uploads, all with the same `count`. -/
def uploadRounds (s : VertexArrayBuffer) (count : Nat) :
    List (List (BindingInfo × List Nat)) → Option VertexArrayBuffer
  | [] => some s
  | round :: rest =>
    match uploadRound s count round with
    | none => none
    | some s1 => uploadRounds s1 count rest

/-- The layouts of a buffer map, in iteration order. -/
def BuffersMap.keys (m : BuffersMap) : List BindingInfo := m.map Prod.fst

/-- A static layout with one attribute. -/
def layoutPosition : BindingInfo :=
  { m_bindings := [⟨"a_position", 3, 5126, 12, 0⟩], m_isDynamic := false, m_elementSize := 12 }

/-- A second static layout. -/
def layoutNormal : BindingInfo :=
  { m_bindings := [⟨"a_normal", 3, 5126, 12, 0⟩], m_isDynamic := false, m_elementSize := 12 }

/-- A dynamic layout with one attribute. -/
def layoutColor : BindingInfo :=
  { m_bindings := [⟨"a_color", 4, 5126, 16, 0⟩], m_isDynamic := true, m_elementSize := 16 }

/-- A program that knows the attributes of the three sample layouts. -/
def sampleProgram : GpuProgram :=
  { m_address := 1, m_attributes := [("a_position", 0), ("a_normal", 1), ("a_color", 2)] }

/-- A platform without vertex-array objects. -/
def platformManualBind : Platform :=
  { vaoSupported := false, genVertexArray := 0, isAdreno200Device := false, sizeOfIndex := 2 }

/-- A platform with vertex-array objects, whose next generated handle is 7. -/
def platformCachedState : Platform :=
  { vaoSupported := true, genVertexArray := 7, isAdreno200Device := false, sizeOfIndex := 2 }

/-- An Adreno 200 device: the device-quirk flag is set. -/
def platformAdreno200 : Platform :=
  { vaoSupported := false, genVertexArray := 0, isAdreno200Device := true, sizeOfIndex := 2 }

/-- An OpenGL ES 3 context. -/
def contextES3 : GraphicsContext := { m_apiVersion := ApiVersion.OpenGLES3 }

/-- An orchestrator after the producer uploaded three vertices to `layoutPosition` and three
indices, called `Preflush`, and the consumer called `Build` with `sampleProgram`, on a
platform without vertex-array objects. -/
def sampleBuilt : Option VertexArrayBuffer :=
  ((((VertexArrayBuffer.create platformManualBind 6 10).UploadData layoutPosition [1, 2, 3] 3).bind
    (fun s => s.UploadIndexes [0, 1, 2] 3)).bind
    (fun s => s.Preflush contextES3)).bind
    (fun s => s.Build platformManualBind contextES3 (some sampleProgram))

/-- An orchestrator on an Adreno 200 device after the producer uploaded three vertices to
`layoutPosition`, two elements to `layoutColor` and three indices. -/
def sampleQuirk : VertexArrayBuffer :=
  { m_dataBufferSize := 10,
    m_indexBuffer := ⟨2, [0, 1, 2, 0, 0, 0], 3, none, 0⟩,
    m_staticBuffers := [(layoutPosition, ⟨12, [1, 2, 3, 0, 0, 0, 0, 0, 0, 0], 3, none, 0⟩)],
    m_dynamicBuffers := [(layoutColor, ⟨16, [8, 9, 0, 0, 0, 0, 0, 0, 0, 0], 2, none, 0⟩)],
    m_impl := none, m_moveToGpuOnBuild := true, m_isPreflushed := false, m_isChanged := true }

/-- A program that knows the attribute of `layoutPosition` only. -/
def programPositionOnly : GpuProgram :=
  { m_address := 2, m_attributes := [("a_position", 0)] }

/-- An orchestrator after the producer uploaded three vertices to `layoutPosition`, two
elements to `layoutColor` and three indices, called `Preflush`, and the consumer called
`Build` with `programPositionOnly`, on a platform with vertex-array objects. -/
def sampleMissingAttribute : Option VertexArrayBuffer :=
  (((((VertexArrayBuffer.create platformCachedState 6 10).UploadData layoutPosition
      [1, 2, 3] 3).bind
    (fun s => s.UploadData layoutColor [8, 9] 2)).bind
    (fun s => s.UploadIndexes [0, 1, 2] 3)).bind
    (fun s => s.Preflush contextES3)).bind
    (fun s => s.Build platformCachedState contextES3 (some programPositionOnly))

/-- The calls of one render call as the specification lists them: backend `Bind`;
`BindBuffers` over the static map if and only if `Bind` returned false; `BindBuffers` over
the whole dynamic map; `Bind` of the index buffer; backend `RenderRange` with the requested
range; backend `Unbind`. -/
def renderSequence (usedCachedState : Bool) (s : VertexArrayBuffer) (drawAsLine : Bool)
    (range : IndicesRange) : List Call :=
  [Call.Bind usedCachedState]
    ++ (if usedCachedState then [] else [Call.BindBuffers s.m_staticBuffers])
    ++ [Call.BindBuffers s.m_dynamicBuffers, Call.IndexBufferBind,
        Call.RenderRange drawAsLine range, Call.Unbind]

/-- The value of `sampleBuilt`. -/
def sampleBuiltState : VertexArrayBuffer :=
  { m_dataBufferSize := 10,
    m_indexBuffer := ⟨2, [0, 1, 2, 0, 0, 0], 3, some Target.IndexBuffer, 1⟩,
    m_staticBuffers :=
      [(layoutPosition, ⟨12, [1, 2, 3, 0, 0, 0, 0, 0, 0, 0], 3, some Target.ElementBuffer, 1⟩)],
    m_dynamicBuffers := [],
    m_impl := some ⟨0, some sampleProgram⟩,
    m_moveToGpuOnBuild := false, m_isPreflushed := true, m_isChanged := true }

/-- The value of `sampleMissingAttribute`. -/
def sampleMissingAttributeState : VertexArrayBuffer :=
  { m_dataBufferSize := 10,
    m_indexBuffer := ⟨2, [0, 1, 2, 0, 0, 0], 3, some Target.IndexBuffer, 1⟩,
    m_staticBuffers :=
      [(layoutPosition, ⟨12, [1, 2, 3, 0, 0, 0, 0, 0, 0, 0], 3, some Target.ElementBuffer, 1⟩)],
    m_dynamicBuffers :=
      [(layoutColor, ⟨16, [8, 9, 0, 0, 0, 0, 0, 0, 0, 0], 2, some Target.ElementBuffer, 1⟩)],
    m_impl := some ⟨7, some programPositionOnly⟩,
    m_moveToGpuOnBuild := false, m_isPreflushed := true, m_isChanged := true }

/-- One call on the orchestrator, by the producer or by the consumer. -/
inductive Operation where
  | UploadData (bindingInfo : BindingInfo) (data : List Nat) (count : Nat)
  | UploadIndexes (data : List Nat) (count : Nat)
  | Preflush (context : GraphicsContext)
  | Build (pf : Platform) (context : GraphicsContext) (program : Option GpuProgram)
  | Render (pf : Platform) (context : GraphicsContext) (drawAsLine : Bool)
  | RenderRange (pf : Platform) (context : GraphicsContext) (drawAsLine : Bool)
      (range : IndicesRange)
  | ApplyMutation (pf : Platform) (context : GraphicsContext)
      (indexMutator : Option IndexBufferMutator) (attrMutator : Option AttributeBufferMutator)

/-- The orchestrator after one call, `none` when an assertion stops the call; a render call
leaves the orchestrator as it is. -/
def Operation.run (s : VertexArrayBuffer) : Operation → Option VertexArrayBuffer
  | Operation.UploadData bindingInfo data count => s.UploadData bindingInfo data count
  | Operation.UploadIndexes data count => s.UploadIndexes data count
  | Operation.Preflush context => s.Preflush context
  | Operation.Build pf context program => s.Build pf context program
  | Operation.Render pf context drawAsLine =>
    match s.Render pf context drawAsLine with
    | none => none
    | some _ => some s
  | Operation.RenderRange pf context drawAsLine range =>
    match s.RenderRange pf context drawAsLine range with
    | none => none
    | some _ => some s
  | Operation.ApplyMutation pf context indexMutator attrMutator =>
    s.ApplyMutation pf context indexMutator attrMutator

/-- A sequence of calls on the orchestrator. -/
def runOperations (s : VertexArrayBuffer) : List Operation → Option VertexArrayBuffer
  | [] => some s
  | operation :: rest =>
    match operation.run s with
    | none => none
    | some s1 => runOperations s1 rest

/-- An orchestrator with one dynamic buffer and no static buffer, on a platform with
vertex-array objects (`glGenVertexArray` returns 7): the producer uploaded two elements to
`layoutColor` and three indices and called `Preflush`, the consumer called `Build` with
`sampleProgram`. -/
def sampleDynamicOnly : Option VertexArrayBuffer :=
  ((((VertexArrayBuffer.create platformCachedState 6 10).UploadData layoutColor [8, 9] 2).bind
    (fun s => s.UploadIndexes [0, 1, 2] 3)).bind
    (fun s => s.Preflush contextES3)).bind
    (fun s => s.Build platformCachedState contextES3 (some sampleProgram))

/-- The value of `sampleDynamicOnly`. -/
def sampleDynamicOnlyState : VertexArrayBuffer :=
  { m_dataBufferSize := 10,
    m_indexBuffer := ⟨2, [0, 1, 2, 0, 0, 0], 3, some Target.IndexBuffer, 1⟩,
    m_staticBuffers := [],
    m_dynamicBuffers :=
      [(layoutColor, ⟨16, [8, 9, 0, 0, 0, 0, 0, 0, 0, 0], 2, some Target.ElementBuffer, 1⟩)],
    m_impl := some ⟨0, none⟩,
    m_moveToGpuOnBuild := false, m_isPreflushed := true, m_isChanged := true }

/-! ## The covering range -/

theorem u32sub_eq_sub {a b : Nat} (hba : b ≤ a) (ha : a < UINT32_SIZE) : u32sub a b = a - b := by
  unfold u32sub UINT32_SIZE at *
  omega

theorem u32add_eq_add {a b : Nat} (h : a + b < UINT32_SIZE) : u32add a b = a + b := by
  unfold u32add UINT32_SIZE at *
  omega

/-- What the loop of `CalculateMappingPart` has computed when it ends, for regions whose end
does not wrap around. -/
theorem CalculateMappingPart.loop_some (nodes : List MutateNode) :
    ∀ (minOffset maxOffset minOffset1 maxOffset1 : Nat),
      CalculateMappingPart.loop nodes (minOffset, maxOffset) = some (minOffset1, maxOffset1) →
      (∀ node ∈ nodes, node.m_region.m_offset + node.m_region.m_count < UINT32_SIZE) →
      minOffset1 ≤ minOffset ∧ maxOffset ≤ maxOffset1 ∧
      (∀ node ∈ nodes, 0 < node.m_region.m_count ∧ minOffset1 ≤ node.m_region.m_offset ∧
        node.m_region.m_offset + node.m_region.m_count ≤ maxOffset1) ∧
      (minOffset1 = minOffset ∨ ∃ node ∈ nodes, node.m_region.m_offset = minOffset1) ∧
      (maxOffset1 = maxOffset ∨
        ∃ node ∈ nodes, node.m_region.m_offset + node.m_region.m_count = maxOffset1) := by
  induction nodes with
  | nil =>
    intro mn mx mn1 mx1 h _
    simp only [CalculateMappingPart.loop, Option.some.injEq, Prod.mk.injEq] at h
    obtain ⟨rfl, rfl⟩ := h
    simp
  | cons node rest ih =>
    intro mn mx mn1 mx1 h hw
    have hnode := hw node (List.mem_cons_self _ _)
    have hrest : ∀ n ∈ rest, n.m_region.m_offset + n.m_region.m_count < UINT32_SIZE :=
      fun n hn => hw n (List.mem_cons_of_mem _ hn)
    simp only [CalculateMappingPart.loop] at h
    by_cases hc : node.m_region.m_count > 0
    · rw [if_pos hc, u32add_eq_add hnode] at h
      obtain ⟨h1, h2, h3, h4, h5⟩ := ih _ _ _ _ h hrest
      refine ⟨?_, ?_, ?_, ?_, ?_⟩
      · split at h1 <;> omega
      · split at h2 <;> omega
      · intro n hn
        rcases List.mem_cons.mp hn with rfl | hn
        · refine ⟨hc, ?_, ?_⟩
          · split at h1 <;> omega
          · split at h2 <;> omega
        · exact h3 n hn
      · rcases h4 with h4 | ⟨n, hn, h4⟩
        · by_cases hlt : node.m_region.m_offset < mn
          · rw [if_pos hlt] at h4
            exact Or.inr ⟨node, List.mem_cons_self _ _, h4.symm⟩
          · rw [if_neg hlt] at h4
            exact Or.inl h4
        · exact Or.inr ⟨n, List.mem_cons_of_mem _ hn, h4⟩
      · rcases h5 with h5 | ⟨n, hn, h5⟩
        · by_cases hgt : node.m_region.m_offset + node.m_region.m_count > mx
          · rw [if_pos hgt] at h5
            exact Or.inr ⟨node, List.mem_cons_self _ _, h5.symm⟩
          · rw [if_neg hgt] at h5
            exact Or.inl h5
        · exact Or.inr ⟨n, List.mem_cons_of_mem _ hn, h5⟩
    · rw [if_neg hc] at h
      exact absurd h (by simp)

/-- The loop of `CalculateMappingPart` ends normally when every count is positive. -/
theorem CalculateMappingPart.loop_isSome (nodes : List MutateNode) :
    ∀ (acc : Nat × Nat), (∀ node ∈ nodes, 0 < node.m_region.m_count) →
      ∃ res, CalculateMappingPart.loop nodes acc = some res := by
  induction nodes with
  | nil => intro acc _; exact ⟨acc, rfl⟩
  | cons node rest ih =>
    intro acc h
    obtain ⟨mn, mx⟩ := acc
    have hc : node.m_region.m_count > 0 := h node (List.mem_cons_self _ _)
    simp only [CalculateMappingPart.loop, if_pos hc]
    exact ih _ (fun n hn => h n (List.mem_cons_of_mem _ hn))

/-- What `CalculateMappingPart` returns, for regions whose end does not wrap around. -/
theorem CalculateMappingPart_some (nodes : List MutateNode) (start length : Nat)
    (hw : ∀ node ∈ nodes, node.m_region.m_offset + node.m_region.m_count < UINT32_SIZE)
    (h : CalculateMappingPart nodes = some (start, length)) :
    (∀ node ∈ nodes, 0 < node.m_region.m_count ∧ start ≤ node.m_region.m_offset ∧
      node.m_region.m_offset + node.m_region.m_count ≤ start + length) ∧
    (nodes ≠ [] → (∃ node ∈ nodes, node.m_region.m_offset = start) ∧
      ∃ node ∈ nodes, node.m_region.m_offset + node.m_region.m_count = start + length) := by
  unfold CalculateMappingPart at h
  cases hl : CalculateMappingPart.loop nodes (UINT32_MAX, 0) with
  | none => rw [hl] at h; exact absurd h (by simp)
  | some res =>
    obtain ⟨mn, mx⟩ := res
    rw [hl] at h
    simp only at h
    by_cases hlt : mn < mx
    · rw [if_pos hlt] at h
      simp only [Option.some.injEq, Prod.mk.injEq] at h
      obtain ⟨rfl, hlen⟩ := h
      obtain ⟨h1, _, h3, h4, h5⟩ := CalculateMappingPart.loop_some nodes _ _ _ _ hl hw
      have hmx : mx < UINT32_SIZE := by
        rcases h5 with h5 | ⟨n, hn, h5⟩
        · rw [h5]; decide
        · have := hw n hn; omega
      have hsub := u32sub_eq_sub (Nat.le_of_lt hlt) hmx
      have hsum : mn + length = mx := by omega
      refine ⟨?_, ?_⟩
      · intro n hn
        obtain ⟨a, b, c⟩ := h3 n hn
        exact ⟨a, b, by omega⟩
      · intro hne
        obtain ⟨n0, rest, rfl⟩ := List.exists_cons_of_ne_nil hne
        have h0 := h3 n0 (List.mem_cons_self _ _)
        have hw0 := hw n0 (List.mem_cons_self _ _)
        refine ⟨?_, ?_⟩
        · rcases h4 with h4 | h4
          · exfalso
            unfold UINT32_MAX at h4
            unfold UINT32_SIZE at hw0
            omega
          · exact h4
        · rcases h5 with h5 | ⟨n, hn, h5⟩
          · exfalso; omega
          · exact ⟨n, hn, by omega⟩
    · rw [if_neg hlt] at h
      exact absurd h (by simp)

/-- The function `CalculateMappingPart` returns for a non-empty list of regions with
positive counts whose ends do not wrap around. -/
theorem CalculateMappingPart_isSome (nodes : List MutateNode) (hne : nodes ≠ [])
    (h : ∀ node ∈ nodes, 0 < node.m_region.m_count ∧
      node.m_region.m_offset + node.m_region.m_count < UINT32_SIZE) :
    ∃ start length, CalculateMappingPart nodes = some (start, length) := by
  obtain ⟨⟨mn, mx⟩, hl⟩ :=
    CalculateMappingPart.loop_isSome nodes (UINT32_MAX, 0) (fun n hn => (h n hn).1)
  obtain ⟨_, _, h3, _, _⟩ :=
    CalculateMappingPart.loop_some nodes _ _ _ _ hl (fun n hn => (h n hn).2)
  obtain ⟨n0, rest, rfl⟩ := List.exists_cons_of_ne_nil hne
  have h0 := h3 n0 (List.mem_cons_self _ _)
  have hlt : mn < mx := by omega
  exact ⟨mn, u32sub mx mn, by simp only [CalculateMappingPart, hl, if_pos hlt]⟩

/-- C1 (as amended): for every non-empty list of regions with positive counts in which no
region's end `offset + count` wraps around 32 bits, `CalculateMappingPart` returns
`(start, length)` where `start` is the minimum region offset and `start + length` is the
maximum of `offset + count` over the list; for the regions (0, 4) and (10, 4) it returns
(0, 14). -/
theorem CalculateMappingPart_covering_range (nodes : List MutateNode) (hne : nodes ≠ [])
    (h : ∀ node ∈ nodes, 0 < node.m_region.m_count ∧
      node.m_region.m_offset + node.m_region.m_count < UINT32_SIZE) :
    (∃ start length, CalculateMappingPart nodes = some (start, length) ∧
      (∃ node ∈ nodes, node.m_region.m_offset = start) ∧
      (∀ node ∈ nodes, start ≤ node.m_region.m_offset) ∧
      (∃ node ∈ nodes, node.m_region.m_offset + node.m_region.m_count = start + length) ∧
      (∀ node ∈ nodes, node.m_region.m_offset + node.m_region.m_count ≤ start + length)) ∧
    (∀ data1 data2 : List Nat,
      CalculateMappingPart [⟨⟨0, 4⟩, data1⟩, ⟨⟨10, 4⟩, data2⟩] = some (0, 14)) := by
  refine ⟨?_, fun _ _ => by
    simp [CalculateMappingPart, CalculateMappingPart.loop, u32add, u32sub, UINT32_SIZE,
      UINT32_MAX]⟩
  obtain ⟨start, length, hs⟩ := CalculateMappingPart_isSome nodes hne h
  obtain ⟨h1, h2⟩ := CalculateMappingPart_some nodes start length (fun n hn => (h n hn).2) hs
  obtain ⟨h3, h4⟩ := h2 hne
  exact ⟨start, length, hs, h3, fun n hn => (h1 n hn).2.1, h4, fun n hn => (h1 n hn).2.2⟩

/-- Witness of C1 (as amended) at the regions (0, 4) and (10, 4). -/
theorem CalculateMappingPart_covering_range_witness :
    ∃ start length,
      CalculateMappingPart [⟨⟨0, 4⟩, [1, 2, 3, 4]⟩, ⟨⟨10, 4⟩, [5, 6, 7, 8]⟩]
        = some (start, length) ∧ start = 0 ∧ start + length = 14 := by
  obtain ⟨⟨start, length, hs, _, _, _, _⟩, hex⟩ :=
    CalculateMappingPart_covering_range [⟨⟨0, 4⟩, [1, 2, 3, 4]⟩, ⟨⟨10, 4⟩, [5, 6, 7, 8]⟩]
      (by simp) (by decide)
  rw [hex] at hs
  simp only [Option.some.injEq, Prod.mk.injEq] at hs
  exact ⟨start, length, by rw [hex, ← hs.1, ← hs.2], hs.1.symm, by omega⟩

/-- C1 fails as stated: the regions (0, 4) and (4294967294, 4) are 32-bit regions with
positive counts, `CalculateMappingPart` returns (0, 4) for them, and 0 + 4 is not the maximum
of `offset + count`, which is 4294967298 and wraps around to 2 in the code. -/
theorem CalculateMappingPart_wraps_around :
    (∀ node ∈ [(⟨⟨0, 4⟩, [1, 2, 3, 4]⟩ : MutateNode), ⟨⟨4294967294, 4⟩, [5, 6, 7, 8]⟩],
      0 < node.m_region.m_count ∧ node.m_region.m_offset < UINT32_SIZE ∧
      node.m_region.m_count < UINT32_SIZE) ∧
    CalculateMappingPart [⟨⟨0, 4⟩, [1, 2, 3, 4]⟩, ⟨⟨4294967294, 4⟩, [5, 6, 7, 8]⟩]
      = some (0, 4) ∧
    ¬ (∀ node ∈ [(⟨⟨0, 4⟩, [1, 2, 3, 4]⟩ : MutateNode), ⟨⟨4294967294, 4⟩, [5, 6, 7, 8]⟩],
      node.m_region.m_offset + node.m_region.m_count ≤ 0 + 4) := by
  decide

/-- C3 (as amended): for every list of regions in which no region's end `offset + count`
wraps around 32 bits and for which `CalculateMappingPart` returns `(start, length)`, every
write `ApplyMutation` issues to the mapper stays within the mapped region: for each region,
`offset ≥ start` and `(offset - start) + count ≤ length`, the difference being the 32-bit
one of the code. -/
theorem ApplyMutation_writes_within_mapping (nodes : List MutateNode) (start length : Nat)
    (hw : ∀ node ∈ nodes, node.m_region.m_offset + node.m_region.m_count < UINT32_SIZE)
    (h : CalculateMappingPart nodes = some (start, length)) :
    (∀ node ∈ nodes, start ≤ node.m_region.m_offset ∧
      (node.m_region.m_offset - start) + node.m_region.m_count ≤ length) ∧
    (∀ write ∈ VertexArrayBuffer.mapperWrites nodes start, write.1 + write.2 ≤ length) := by
  obtain ⟨h1, _⟩ := CalculateMappingPart_some nodes start length hw h
  refine ⟨fun n hn => ?_, fun w hwr => ?_⟩
  · obtain ⟨_, b, c⟩ := h1 n hn
    exact ⟨b, by omega⟩
  · simp only [VertexArrayBuffer.mapperWrites, List.mem_map] at hwr
    obtain ⟨n, hn, rfl⟩ := hwr
    obtain ⟨_, b, c⟩ := h1 n hn
    have hlt := hw n hn
    have : u32sub n.m_region.m_offset start = n.m_region.m_offset - start :=
      u32sub_eq_sub b (by omega)
    simp only [this]
    omega

/-- Witness of C3 (as amended) at the regions (0, 4) and (10, 4). -/
theorem ApplyMutation_writes_within_mapping_witness :
    (∀ node ∈ [(⟨⟨0, 4⟩, [1, 2, 3, 4]⟩ : MutateNode), ⟨⟨10, 4⟩, [5, 6, 7, 8]⟩],
      0 ≤ node.m_region.m_offset ∧
      (node.m_region.m_offset - 0) + node.m_region.m_count ≤ 14) ∧
    (∀ write ∈ VertexArrayBuffer.mapperWrites
        [⟨⟨0, 4⟩, [1, 2, 3, 4]⟩, ⟨⟨10, 4⟩, [5, 6, 7, 8]⟩] 0, write.1 + write.2 ≤ 14) :=
  ApplyMutation_writes_within_mapping [⟨⟨0, 4⟩, [1, 2, 3, 4]⟩, ⟨⟨10, 4⟩, [5, 6, 7, 8]⟩] 0 14
    (by decide) (by decide)

/-- C3 fails as stated: the regions (4294967295, 2) and (0, 1) are 32-bit regions with
positive counts, `CalculateMappingPart` returns (0, 1) for them, and the write of the first
region, at the relative offset 4294967295 with count 2, is not within the 1 mapped element. -/
theorem ApplyMutation_write_outside_mapping :
    (∀ node ∈ [(⟨⟨4294967295, 2⟩, [1, 2]⟩ : MutateNode), ⟨⟨0, 1⟩, [3]⟩],
      0 < node.m_region.m_count ∧ node.m_region.m_offset < UINT32_SIZE ∧
      node.m_region.m_count < UINT32_SIZE) ∧
    CalculateMappingPart [⟨⟨4294967295, 2⟩, [1, 2]⟩, ⟨⟨0, 1⟩, [3]⟩] = some (0, 1) ∧
    VertexArrayBuffer.mapperWrites [⟨⟨4294967295, 2⟩, [1, 2]⟩, ⟨⟨0, 1⟩, [3]⟩] 0
      = [(4294967295, 2), (0, 1)] ∧
    ¬ (∀ node ∈ [(⟨⟨4294967295, 2⟩, [1, 2]⟩ : MutateNode), ⟨⟨0, 1⟩, [3]⟩],
      0 ≤ node.m_region.m_offset ∧
      (node.m_region.m_offset - 0) + node.m_region.m_count ≤ 1) := by
  decide

/-! ## Batched partial writes against the reference -/

theorem readRaw_length (data : List Nat) (count : Nat) : (readRaw data count).length = count := by
  simp [readRaw]

theorem writeAt_length (memory : List Nat) (offset : Nat) (data : List Nat)
    (h : offset + data.length ≤ memory.length) :
    (writeAt memory offset data).length = memory.length := by
  simp only [writeAt, List.length_append, List.length_take, List.length_drop]
  omega

/-- C10: `GLVertexArrayBufferImpl::Build(program)` returns false and leaves the backend state
(stored program, vertex-array object handle) unchanged whenever a vertex-array object
already exists and `program` is identical to the stored program; on a platform without
vertex-array-object support it returns false for every program and every prior state; in
every remaining case it stores `program`, replaces the vertex-array object by the newly
generated one and returns true. -/
theorem GLVertexArrayBufferImpl.Build_cases (pf : Platform) (impl : GLVertexArrayBufferImpl)
    (program : Option GpuProgram) :
    (impl.m_VAO ≠ 0 ∧ refGet impl.m_program = refGet program →
      impl.Build pf program = (false, impl)) ∧
    (pf.vaoSupported = false → (impl.Build pf program).1 = false) ∧
    (¬ (impl.m_VAO ≠ 0 ∧ refGet impl.m_program = refGet program) → pf.vaoSupported = true →
      impl.Build pf program
        = (true, { m_VAO := pf.genVertexArray, m_program := program })) := by
  refine ⟨?_, ?_, ?_⟩
  · intro h
    simp only [GLVertexArrayBufferImpl.Build, if_pos h]
  · intro h
    by_cases hc : impl.m_VAO ≠ 0 ∧ refGet impl.m_program = refGet program
    · simp only [GLVertexArrayBufferImpl.Build, if_pos hc]
    · simp [GLVertexArrayBufferImpl.Build, if_neg hc, h]
  · intro hc h
    simp [GLVertexArrayBufferImpl.Build, if_neg hc, h]

/-- Witness of C10: a backend holding the vertex-array object 7 and `sampleProgram`, asked
to build `sampleProgram` again, then on a platform without vertex-array objects, then a
fresh backend on a platform with them. -/
theorem GLVertexArrayBufferImpl.Build_cases_witness :
    GLVertexArrayBufferImpl.Build platformCachedState ⟨7, some sampleProgram⟩
        (some sampleProgram) = (false, ⟨7, some sampleProgram⟩) ∧
    (GLVertexArrayBufferImpl.Build platformManualBind ⟨0, none⟩ (some sampleProgram)).1
        = false ∧
    GLVertexArrayBufferImpl.Build platformCachedState ⟨0, none⟩ (some sampleProgram)
        = (true, ⟨7, some sampleProgram⟩) :=
  ⟨(GLVertexArrayBufferImpl.Build_cases platformCachedState ⟨7, some sampleProgram⟩
      (some sampleProgram)).1 (by decide),
   (GLVertexArrayBufferImpl.Build_cases platformManualBind ⟨0, none⟩
      (some sampleProgram)).2.1 (by decide),
   (GLVertexArrayBufferImpl.Build_cases platformCachedState ⟨0, none⟩
      (some sampleProgram)).2.2 (by decide) (by decide)⟩

/-! ## Preflush -/

/-- C5 (as amended): on an orchestrator whose device-quirk flag is unset, calling `Preflush`
twice is a fatal precondition violation: the second of two `Preflush` calls fails the
assertion of `PreflushImpl` instead of returning normally (and the first call returns when
the orchestrator was not yet preflushed); with the flag set every `Preflush` call returns
normally and leaves the orchestrator unchanged. -/
theorem Preflush_twice (s : VertexArrayBuffer) (context1 context2 : GraphicsContext) :
    (s.m_moveToGpuOnBuild = false → s.m_isPreflushed = false →
      ∃ s1, s.Preflush context1 = some s1 ∧ s1.Preflush context2 = none) ∧
    (s.m_moveToGpuOnBuild = false →
      ∀ s1, s.Preflush context1 = some s1 → s1.Preflush context2 = none) ∧
    (s.m_moveToGpuOnBuild = true → s.Preflush context1 = some s) := by
  refine ⟨?_, ?_, ?_⟩
  · intro hq hp
    simp [VertexArrayBuffer.Preflush, VertexArrayBuffer.PreflushImpl, hq, hp]
  · intro hq s1 h
    by_cases hp : s.m_isPreflushed = true
    · simp [VertexArrayBuffer.Preflush, VertexArrayBuffer.PreflushImpl, hq, hp] at h
    · simp only [Bool.not_eq_true] at hp
      simp only [VertexArrayBuffer.Preflush, VertexArrayBuffer.PreflushImpl, hq, hp,
        Bool.not_false, if_true, Option.some.injEq] at h
      subst h
      simp [VertexArrayBuffer.Preflush, VertexArrayBuffer.PreflushImpl, hq]
  · intro hq
    simp [VertexArrayBuffer.Preflush, hq]

/-- Witness of C5 (as amended): a fresh orchestrator on a platform without the quirk, and
one on an Adreno 200 device. -/
theorem Preflush_twice_witness :
    (∃ s1, (VertexArrayBuffer.create platformManualBind 6 10).Preflush contextES3 = some s1 ∧
      s1.Preflush contextES3 = none) ∧
    (VertexArrayBuffer.create platformAdreno200 6 10).Preflush contextES3
      = some (VertexArrayBuffer.create platformAdreno200 6 10) :=
  ⟨(Preflush_twice (VertexArrayBuffer.create platformManualBind 6 10) contextES3
      contextES3).1 (by decide) (by decide),
   (Preflush_twice (VertexArrayBuffer.create platformAdreno200 6 10) contextES3
      contextES3).2.2 (by decide)⟩

/-- C5 fails as stated: on an orchestrator constructed on an Adreno 200 device (the
device-quirk flag is set) the second of two `Preflush` calls returns normally. -/
theorem Preflush_twice_returns_with_quirk :
    (VertexArrayBuffer.create platformAdreno200 6 10).m_moveToGpuOnBuild = true ∧
    ((VertexArrayBuffer.create platformAdreno200 6 10).Preflush contextES3).bind
      (fun s1 => s1.Preflush contextES3)
      = some (VertexArrayBuffer.create platformAdreno200 6 10) := by
  decide

/-! ## Rendering -/

/-- C6 (as amended): `RenderRange(context, drawAsLine, range)` is a no-op - it issues no
bind, draw or unbind call - for every orchestrator that has neither static nor dynamic
buffers and for every orchestrator whose index buffer holds no index (`GetIndexCount()` is
zero), whatever the requested range; `Render`, whose requested index count is the current
size of the index buffer, is a no-op whenever that count is zero. -/
theorem RenderRange_noop (pf : Platform) (s : VertexArrayBuffer) (context : GraphicsContext)
    (drawAsLine : Bool) (range : IndicesRange) :
    (s.m_staticBuffers = [] ∧ s.m_dynamicBuffers = [] →
      s.RenderRange pf context drawAsLine range = some []) ∧
    (s.GetIndexCount = 0 → s.RenderRange pf context drawAsLine range = some []) ∧
    (s.GetIndexBuffer.GetCurrentSize = 0 → s.Render pf context drawAsLine = some []) := by
  refine ⟨?_, ?_, ?_⟩
  · rintro ⟨h1, h2⟩
    simp [VertexArrayBuffer.RenderRange, h1, h2]
  · intro h
    simp [VertexArrayBuffer.RenderRange, h]
  · intro h
    have h0 : s.GetIndexCount = 0 := h
    simp [VertexArrayBuffer.Render, VertexArrayBuffer.RenderRange, h0]

/-- Witness of C6 (as amended): a fresh orchestrator has no buffers and no indices. -/
theorem RenderRange_noop_witness :
    (VertexArrayBuffer.create platformManualBind 6 10).RenderRange platformManualBind
      contextES3 false ⟨0, 3⟩ = some [] ∧
    (VertexArrayBuffer.create platformManualBind 6 10).Render platformManualBind
      contextES3 false = some [] :=
  ⟨(RenderRange_noop platformManualBind (VertexArrayBuffer.create platformManualBind 6 10)
      contextES3 false ⟨0, 3⟩).1 ⟨rfl, rfl⟩,
   (RenderRange_noop platformManualBind (VertexArrayBuffer.create platformManualBind 6 10)
      contextES3 false ⟨0, 3⟩).2.2 rfl⟩

/-- C6 fails as stated: on the built orchestrator `sampleBuilt`, which has a static buffer
and three indices, `RenderRange` with a requested range of index count zero binds, draws
and unbinds. -/
theorem RenderRange_zero_count_draws :
    sampleBuilt.bind (fun s => s.RenderRange platformManualBind contextES3 false ⟨0, 0⟩)
      = some [Call.Bind false,
          Call.BindBuffers
            [(layoutPosition,
              ⟨12, [1, 2, 3, 0, 0, 0, 0, 0, 0, 0], 3, some Target.ElementBuffer, 1⟩)],
          Call.BindBuffers [], Call.IndexBufferBind, Call.RenderRange false ⟨0, 0⟩,
          Call.Unbind] := by
  decide

/-! ## Deferred materialization -/

theorem createImpl_frame {s s2 : VertexArrayBuffer} {context : GraphicsContext}
    (h : s.createImpl context = some s2) : s2 = { s with m_impl := s2.m_impl } := by
  unfold VertexArrayBuffer.createImpl at h
  split at h
  · simp only [Option.some.injEq] at h; subst h; rfl
  · split at h <;> simp only [Option.some.injEq, reduceCtorEq] at h <;> subst h <;> rfl

/-- A `Build` that returns changes, after its preflush step, nothing but the backend. -/
theorem Build_frame {pf : Platform} {s s1 : VertexArrayBuffer} {context : GraphicsContext}
    {program : Option GpuProgram} (h : s.Build pf context program = some s1) :
    ∃ s0, (if s.m_moveToGpuOnBuild && !s.m_isPreflushed then s.PreflushImpl context
           else some s) = some s0 ∧ s1 = { s0 with m_impl := s1.m_impl } := by
  unfold VertexArrayBuffer.Build at h
  split at h
  · exact absurd h (by simp)
  · rename_i s0 h0
    refine ⟨s0, h0, ?_⟩
    split at h
    · exact absurd h (by simp)
    · rename_i s2 h2
      have hf := createImpl_frame h2
      split at h
      · simp only [Option.some.injEq] at h; subst h; exact hf
      · split at h
        · exact absurd h (by simp)
        · have key : ∀ impl1, ({ s2 with m_impl := some impl1 } : VertexArrayBuffer)
              = { s0 with m_impl := some impl1 } := by
            intro impl1; rw [hf]
          simp only at h
          split at h
          · simp only [Option.some.injEq] at h; subst h; exact key _
          · split at h
            · exact absurd h (by simp)
            · split at h
              · exact absurd h (by simp)
              · split at h
                · exact absurd h (by simp)
                · simp only [Option.some.injEq] at h; subst h; exact key _

/-- Once the preflush step of `Build` is over, further `Build` calls change nothing but the
backend. -/
theorem runBuilds_frame (calls : List (Platform × GraphicsContext × Option GpuProgram)) :
    ∀ (s s2 : VertexArrayBuffer), (s.m_moveToGpuOnBuild && !s.m_isPreflushed) = false →
      runBuilds s calls = some s2 → s2 = { s with m_impl := s2.m_impl } := by
  induction calls with
  | nil =>
    intro s s2 _ h
    simp only [runBuilds, Option.some.injEq] at h
    subst h; rfl
  | cons call rest ih =>
    intro s s2 hs h
    obtain ⟨pf, context, program⟩ := call
    simp only [runBuilds] at h
    split at h
    · exact absurd h (by simp)
    · rename_i s1 h1
      obtain ⟨s0, h0, hf⟩ := Build_frame h1
      rw [hs] at h0
      simp only [Bool.false_eq_true, if_false, Option.some.injEq] at h0
      subst h0
      have hs1 : (s1.m_moveToGpuOnBuild && !s1.m_isPreflushed) = false := by
        rw [hf]; exact hs
      have h2 := ih s1 s2 hs1 h
      rw [h2, hf]

/-- Binding looks at the layouts only, so it does not matter whether the buffers are
materialized. -/
theorem BindBuffers_moveAllToGPU (impl : GLVertexArrayBufferImpl) (buffers : BuffersMap) :
    impl.BindBuffers (VertexArrayBuffer.moveAllToGPU buffers) = impl.BindBuffers buffers := by
  induction buffers with
  | nil => rfl
  | cons kb rest ih =>
    obtain ⟨k, b⟩ := kb
    simp only [VertexArrayBuffer.moveAllToGPU, List.map_cons,
      GLVertexArrayBufferImpl.BindBuffers] at ih ⊢
    rw [ih]

/-- The first `Build` on a quirk device returns on an OpenGL context when there is no static
buffer, or no vertex-array-object support, or the generated handle is non-zero and the
program resolves every attribute of the static layouts. -/
theorem Build_first_isSome (pf : Platform) (s : VertexArrayBuffer) (context : GraphicsContext)
    (program : Option GpuProgram) (hq : s.m_moveToGpuOnBuild = true)
    (hp : s.m_isPreflushed = false) (hi : s.m_impl = none)
    (hapi : context.m_apiVersion = ApiVersion.OpenGLES2 ∨
      context.m_apiVersion = ApiVersion.OpenGLES3)
    (hok : s.m_staticBuffers = [] ∨ pf.vaoSupported = false ∨
      (pf.genVertexArray ≠ 0 ∧
        GLVertexArrayBufferImpl.BindBuffers ⟨pf.genVertexArray, program⟩ s.m_staticBuffers
          = some ())) :
    ∃ s1, s.Build pf context program = some s1 := by
  have hcreate : ∀ t : VertexArrayBuffer, t.m_impl = none →
      t.createImpl context = some { t with m_impl := some ⟨0, none⟩ } := by
    intro t ht
    rcases hapi with ha | ha <;>
      simp [VertexArrayBuffer.createImpl, ht, GraphicsContext.GetApiVersion, ha]
  obtain ⟨s0, hs0, hi0, hst0⟩ : ∃ s0, (if s.m_moveToGpuOnBuild && !s.m_isPreflushed then
      s.PreflushImpl context else some s) = some s0 ∧ s0.m_impl = none ∧
      s0.m_staticBuffers = VertexArrayBuffer.moveAllToGPU s.m_staticBuffers := by
    simp [VertexArrayBuffer.PreflushImpl, hq, hp, hi]
  unfold VertexArrayBuffer.Build
  rw [hs0]
  simp only
  rw [hcreate s0 hi0]
  simp only [hst0]
  cases hst : s.m_staticBuffers with
  | nil => simp [VertexArrayBuffer.moveAllToGPU]
  | cons kb rest =>
    rw [hst] at hok
    have hne : (VertexArrayBuffer.moveAllToGPU (kb :: rest)).isEmpty = false := by
      simp [VertexArrayBuffer.moveAllToGPU]
    simp only [hne, Bool.false_eq_true, if_false]
    rcases hok with h | h | ⟨hg, hb⟩
    · exact absurd h (by simp)
    · simp [GLVertexArrayBufferImpl.Build, h]
    · cases hv : pf.vaoSupported with
      | false => simp [GLVertexArrayBufferImpl.Build, hv]
      | true =>
        simp [GLVertexArrayBufferImpl.Build, hv, VertexArrayBuffer.Bind,
          GLVertexArrayBufferImpl.Bind, hg, VertexArrayBuffer.BindStaticBuffers,
          VertexArrayBuffer.BindBuffers, BindBuffers_moveAllToGPU, hb,
          VertexArrayBuffer.Unbind, GLVertexArrayBufferImpl.Unbind]
/-- The operations of the producer keep an orchestrator constructed with the device-quirk
flag in the state the first `Build` expects: the flag set, not preflushed, no backend. -/
theorem producer_keeps_quirk_state (s : VertexArrayBuffer) (hq : s.m_moveToGpuOnBuild = true)
    (hp : s.m_isPreflushed = false) (hi : s.m_impl = none) :
    (∀ bindingInfo data count s1, s.UploadData bindingInfo data count = some s1 →
      s1.m_moveToGpuOnBuild = true ∧ s1.m_isPreflushed = false ∧ s1.m_impl = none) ∧
    (∀ data count s1, s.UploadIndexes data count = some s1 →
      s1.m_moveToGpuOnBuild = true ∧ s1.m_isPreflushed = false ∧ s1.m_impl = none) ∧
    (∀ context s1, s.Preflush context = some s1 →
      s1.m_moveToGpuOnBuild = true ∧ s1.m_isPreflushed = false ∧ s1.m_impl = none) := by
  refine ⟨?_, ?_, ?_⟩
  · intro bindingInfo data count s1 h
    unfold VertexArrayBuffer.UploadData at h
    simp only at h
    split at h
    · split at h
      · exact absurd h (by simp)
      · simp only [Option.some.injEq] at h
        subst h
        exact ⟨hq, hp, hi⟩
    · split at h
      · exact absurd h (by simp)
      · simp only [Option.some.injEq] at h
        subst h
        exact ⟨hq, hp, hi⟩
  · intro data count s1 h
    unfold VertexArrayBuffer.UploadIndexes at h
    split at h
    · split at h
      · exact absurd h (by simp)
      · simp only [Option.some.injEq] at h
        subst h
        exact ⟨hq, hp, hi⟩
    · exact absurd h (by simp)
  · intro context s1 h
    simp only [VertexArrayBuffer.Preflush, hq, Bool.not_true, Bool.false_eq_true, if_false,
      Option.some.injEq] at h
    subst h
    exact ⟨hq, hp, hi⟩

/-- C4: for every orchestrator with the device-quirk flag (`m_moveToGpuOnBuild`) set that
is not yet preflushed, `Preflush` leaves the orchestrator state unchanged and materializes
no buffer; the first `Build` starts by materializing every static buffer, every dynamic
buffer and the index buffer and goes on as a `Build` of the preflushed orchestrator; when
it returns, followed by any sequence of further `Build` calls, every one of those buffers
has been materialized exactly once in total (one GPU allocation more than before, for each
buffer); and the first `Build` does return on an OpenGL context when there is no static
buffer, or no vertex-array-object support, or the generated handle is non-zero and the
program resolves the attributes of the static layouts. -/
theorem Build_materializes_once (s : VertexArrayBuffer) (hq : s.m_moveToGpuOnBuild = true)
    (hp : s.m_isPreflushed = false) :
    (∀ context, s.Preflush context = some s) ∧
    (∀ pf context program,
      s.Build pf context program
        = VertexArrayBuffer.Build pf
            { s with
              m_staticBuffers := VertexArrayBuffer.moveAllToGPU s.m_staticBuffers,
              m_dynamicBuffers := VertexArrayBuffer.moveAllToGPU s.m_dynamicBuffers,
              m_indexBuffer := s.m_indexBuffer.MoveToGPU Target.IndexBuffer,
              m_isPreflushed := true } context program) ∧
    (∀ pf context program calls s2,
      runBuilds s ((pf, context, program) :: calls) = some s2 →
      s2.m_staticBuffers = VertexArrayBuffer.moveAllToGPU s.m_staticBuffers ∧
      s2.m_dynamicBuffers = VertexArrayBuffer.moveAllToGPU s.m_dynamicBuffers ∧
      s2.m_indexBuffer = s.m_indexBuffer.MoveToGPU Target.IndexBuffer ∧
      s2.m_staticBuffers.map (fun kb => kb.2.m_gpuAllocations)
        = s.m_staticBuffers.map (fun kb => kb.2.m_gpuAllocations + 1) ∧
      s2.m_dynamicBuffers.map (fun kb => kb.2.m_gpuAllocations)
        = s.m_dynamicBuffers.map (fun kb => kb.2.m_gpuAllocations + 1) ∧
      s2.m_indexBuffer.m_gpuAllocations = s.m_indexBuffer.m_gpuAllocations + 1) ∧
    (∀ pf context program, s.m_impl = none →
      (context.m_apiVersion = ApiVersion.OpenGLES2 ∨
        context.m_apiVersion = ApiVersion.OpenGLES3) →
      (s.m_staticBuffers = [] ∨ pf.vaoSupported = false ∨
        (pf.genVertexArray ≠ 0 ∧
          GLVertexArrayBufferImpl.BindBuffers ⟨pf.genVertexArray, program⟩ s.m_staticBuffers
            = some ())) →
      ∃ s1, s.Build pf context program = some s1) := by
  refine ⟨?_, ?_, ?_, ?_⟩
  · intro context
    simp [VertexArrayBuffer.Preflush, hq]
  · intro pf context program
    have h1 : (if s.m_moveToGpuOnBuild && !s.m_isPreflushed then s.PreflushImpl context
        else some s) = some { s with
          m_staticBuffers := VertexArrayBuffer.moveAllToGPU s.m_staticBuffers,
          m_dynamicBuffers := VertexArrayBuffer.moveAllToGPU s.m_dynamicBuffers,
          m_indexBuffer := s.m_indexBuffer.MoveToGPU Target.IndexBuffer,
          m_isPreflushed := true } := by
      simp [hq, hp, VertexArrayBuffer.PreflushImpl]
    conv_lhs => unfold VertexArrayBuffer.Build
    rw [h1]
    conv_rhs => unfold VertexArrayBuffer.Build
    simp
  · intro pf context program calls s2 h
    simp only [runBuilds] at h
    split at h
    · exact absurd h (by simp)
    · rename_i s1 h1
      obtain ⟨s0, h0, hf⟩ := Build_frame h1
      simp only [hq, hp, Bool.not_false, Bool.and_self, if_true,
        VertexArrayBuffer.PreflushImpl, Option.some.injEq] at h0
      have hs1 : (s1.m_moveToGpuOnBuild && !s1.m_isPreflushed) = false := by
        rw [hf, ← h0]; rfl
      have h2 := runBuilds_frame calls s1 s2 hs1 h
      have e1 : s2.m_staticBuffers = VertexArrayBuffer.moveAllToGPU s.m_staticBuffers := by
        rw [h2, hf, ← h0]
      have e2 : s2.m_dynamicBuffers = VertexArrayBuffer.moveAllToGPU s.m_dynamicBuffers := by
        rw [h2, hf, ← h0]
      have e3 : s2.m_indexBuffer = s.m_indexBuffer.MoveToGPU Target.IndexBuffer := by
        rw [h2, hf, ← h0]
      refine ⟨e1, e2, e3, ?_, ?_, ?_⟩
      · rw [e1]
        simp [VertexArrayBuffer.moveAllToGPU, DataBuffer.MoveToGPU]
      · rw [e2]
        simp [VertexArrayBuffer.moveAllToGPU, DataBuffer.MoveToGPU]
      · rw [e3]
        rfl
  · intro pf context program hi hapi hok
    exact Build_first_isSome pf s context program hq hp hi hapi hok

/-- Witness of C4: `sampleQuirk` is what the producer leaves on an Adreno 200 device;
`Preflush` does not change it and the first `Build` materializes its three buffers once. -/
theorem Build_materializes_once_witness :
    (((VertexArrayBuffer.create platformAdreno200 6 10).UploadData layoutPosition
        [1, 2, 3] 3).bind (fun s => s.UploadData layoutColor [8, 9] 2)).bind
      (fun s => s.UploadIndexes [0, 1, 2] 3) = some sampleQuirk ∧
    sampleQuirk.Preflush contextES3 = some sampleQuirk ∧
    ∃ s1, sampleQuirk.Build platformAdreno200 contextES3 (some sampleProgram) = some s1 ∧
      s1.m_staticBuffers.map (fun kb => kb.2.m_gpuAllocations) = [1] ∧
      s1.m_dynamicBuffers.map (fun kb => kb.2.m_gpuAllocations) = [1] ∧
      s1.m_indexBuffer.m_gpuAllocations = 1 := by
  refine ⟨by decide, (Build_materializes_once sampleQuirk rfl rfl).1 contextES3, ?_⟩
  obtain ⟨s1, h1⟩ := (Build_materializes_once sampleQuirk rfl rfl).2.2.2 platformAdreno200
    contextES3 (some sampleProgram) rfl (Or.inr rfl) (Or.inr (Or.inl rfl))
  obtain ⟨_, _, _, a, b, c⟩ := (Build_materializes_once sampleQuirk rfl rfl).2.2.1
    platformAdreno200 contextES3 (some sampleProgram) [] s1 (by simp [runBuilds, h1])
  exact ⟨s1, h1, a, b, c⟩

/-! ## The calls of one render call -/

theorem GLVertexArrayBufferImpl.Bind_some {pf : Platform} {impl : GLVertexArrayBufferImpl}
    {used : Bool} (h : impl.Bind pf = some used) : used = pf.vaoSupported := by
  unfold GLVertexArrayBufferImpl.Bind at h
  cases hv : pf.vaoSupported with
  | false => simp [hv] at h; exact h
  | true =>
    simp only [hv, if_true] at h
    split at h
    · simp only [Option.some.injEq] at h; exact h.symm
    · exact absurd h (by simp)

/-- A render call on an orchestrator with a buffer and an index either stops at an assertion
or issues the calls of `renderSequence`. -/
theorem RenderRange_some {pf : Platform} {s : VertexArrayBuffer} {context : GraphicsContext}
    {drawAsLine : Bool} {range : IndicesRange} {calls : List Call}
    (hbuf : ¬ (s.m_staticBuffers = [] ∧ s.m_dynamicBuffers = [])) (hidx : 0 < s.GetIndexCount)
    (h : s.RenderRange pf context drawAsLine range = some calls) :
    calls = renderSequence pf.vaoSupported s drawAsLine range := by
  have hcond : (!(s.m_staticBuffers.isEmpty && s.m_dynamicBuffers.isEmpty)
      && decide (s.GetIndexCount > 0)) = true := by
    simp only [Bool.and_eq_true, Bool.not_eq_true', decide_eq_true_eq, Bool.and_eq_false_imp,
      List.isEmpty_iff]
    refine ⟨fun h1 => ?_, hidx⟩
    cases hd : s.m_dynamicBuffers.isEmpty with
    | false => rfl
    | true => exact absurd ⟨h1, List.isEmpty_iff.mp hd⟩ hbuf
  unfold VertexArrayBuffer.RenderRange at h
  rw [if_pos hcond] at h
  cases hi : s.m_impl with
  | none => simp [VertexArrayBuffer.Bind, hi] at h
  | some impl =>
    cases hb : impl.Bind pf with
    | none => simp [VertexArrayBuffer.Bind, hi, hb] at h
    | some used =>
      have hu := GLVertexArrayBufferImpl.Bind_some hb
      subst hu
      simp only [VertexArrayBuffer.Bind, hi, hb] at h
      split at h
      · exact absurd h (by simp)
      · split at h
        · exact absurd h (by simp)
        · split at h
          · exact absurd h (by simp)
          · split at h
            · exact absurd h (by simp)
            · simp only [Option.some.injEq] at h
              rw [← h]
              cases pf.vaoSupported <;> rfl

/-- A render call returns when the backend is ready for it. -/
theorem RenderRange_isSome (pf : Platform) (s : VertexArrayBuffer) (context : GraphicsContext)
    (drawAsLine : Bool) (range : IndicesRange) {impl : GLVertexArrayBufferImpl}
    (hi : s.m_impl = some impl) (hprog : impl.m_program ≠ none)
    (hvao : pf.vaoSupported = true → impl.m_VAO ≠ 0)
    (hst : pf.vaoSupported = false → impl.BindBuffers s.m_staticBuffers = some ())
    (hdy : impl.BindBuffers s.m_dynamicBuffers = some ()) :
    ∃ calls, s.RenderRange pf context drawAsLine range = some calls := by
  unfold VertexArrayBuffer.RenderRange
  split
  · cases hv : pf.vaoSupported with
    | false =>
      simp [VertexArrayBuffer.Bind, hi, GLVertexArrayBufferImpl.Bind, hv,
        VertexArrayBuffer.BindStaticBuffers, VertexArrayBuffer.BindBuffers, hst hv,
        VertexArrayBuffer.BindDynamicBuffers, hdy, GLVertexArrayBufferImpl.RenderRange, hprog,
        VertexArrayBuffer.Unbind, GLVertexArrayBufferImpl.Unbind]
    | true =>
      simp [VertexArrayBuffer.Bind, hi, GLVertexArrayBufferImpl.Bind, hv, hvao hv,
        VertexArrayBuffer.BindDynamicBuffers, VertexArrayBuffer.BindBuffers, hdy,
        GLVertexArrayBufferImpl.RenderRange, hprog,
        VertexArrayBuffer.Unbind, GLVertexArrayBufferImpl.Unbind]
  · exact ⟨[], rfl⟩

theorem moveAllToGPU_eq_nil {buffers : BuffersMap} :
    VertexArrayBuffer.moveAllToGPU buffers = [] ↔ buffers = [] := by
  simp [VertexArrayBuffer.moveAllToGPU]

/-- A `Build` with a non-null program that returns on an orchestrator with a static buffer
leaves a backend that holds a program and, where vertex-array objects are supported, a
non-zero vertex-array object. -/
theorem Build_backend_ready {pf : Platform} {s s1 : VertexArrayBuffer}
    {context : GraphicsContext} {program : GpuProgram} (hst : s.m_staticBuffers ≠ [])
    (h : s.Build pf context (some program) = some s1) :
    ∃ impl, s1.m_impl = some impl ∧ impl.m_program ≠ none ∧
      (pf.vaoSupported = true → impl.m_VAO ≠ 0) := by
  unfold VertexArrayBuffer.Build at h
  split at h
  · exact absurd h (by simp)
  · rename_i s0 h0
    have hst0 : s0.m_staticBuffers ≠ [] := by
      split at h0
      · simp only [VertexArrayBuffer.PreflushImpl] at h0
        split at h0
        · simp only [Option.some.injEq] at h0
          rw [← h0]
          simpa [moveAllToGPU_eq_nil] using hst
        · exact absurd h0 (by simp)
      · simp only [Option.some.injEq] at h0
        rw [← h0]; exact hst
    split at h
    · exact absurd h (by simp)
    · rename_i s2 h2
      have hf := createImpl_frame h2
      have hst2 : s2.m_staticBuffers.isEmpty = false := by
        rw [hf]
        cases hl : s0.m_staticBuffers with
        | nil => exact absurd hl hst0
        | cons _ _ => rfl
      rw [hst2] at h
      simp only [Bool.false_eq_true, if_false] at h
      split at h
      · exact absurd h (by simp)
      · rename_i impl himpl
        by_cases hc : impl.m_VAO ≠ 0 ∧ refGet impl.m_program = refGet (some program)
        · have hb : impl.Build pf (some program) = (false, impl) := by
            simp only [GLVertexArrayBufferImpl.Build, if_pos hc]
          simp only [hb, Bool.not_false, if_true, Option.some.injEq] at h
          subst h
          refine ⟨impl, rfl, ?_, fun _ => hc.1⟩
          intro hn
          have := hc.2
          rw [hn] at this
          simp [refGet] at this
        · cases hv : pf.vaoSupported with
          | false =>
            have hb : impl.Build pf (some program)
                = (false, { impl with m_program := some program }) := by
              simp [GLVertexArrayBufferImpl.Build, if_neg hc, hv]
            simp only [hb, Bool.not_false, if_true, Option.some.injEq] at h
            subst h
            exact ⟨_, rfl, by simp, fun hx => absurd hx (by simp)⟩
          | true =>
            have hb : impl.Build pf (some program)
                = (true, { m_VAO := pf.genVertexArray, m_program := some program }) := by
              simp [GLVertexArrayBufferImpl.Build, if_neg hc, hv]
            simp only [hb, Bool.not_true, Bool.false_eq_true, if_false] at h
            split at h
            · exact absurd h (by simp)
            · rename_i used hbind
              simp only [VertexArrayBuffer.Bind, GLVertexArrayBufferImpl.Bind, hv,
                if_true] at hbind
              split at h
              · exact absurd h (by simp)
              · split at h
                · exact absurd h (by simp)
                · simp only [Option.some.injEq] at h
                  subst h
                  refine ⟨_, rfl, by simp, fun _ => ?_⟩
                  intro hz
                  simp only at hz
                  simp [hz] at hbind
/-- C7 (as amended): for every orchestrator which has at least one buffer and a non-empty
index buffer, a single `RenderRange` (and `Render`, which is `RenderRange` over all
indices) that returns issues exactly this sequence: backend `Bind`; `BindBuffers` over the
static map if and only if `Bind` returned false; `BindBuffers` over the whole dynamic map;
`Bind` of the index buffer; backend `RenderRange` with the requested range; backend
`Unbind`; hence the index buffer and every dynamic buffer are bound on every such render
call, and on a backend with cached vertex-state support the static buffers are not
re-bound. The call does return when the backend exists, holds a program and, where
vertex-array objects are supported, a non-zero vertex-array object, and the program
resolves every attribute of the buffers to bind; a `Build` with a non-null program on an
orchestrator with at least one static buffer leaves such a backend. -/
theorem RenderRange_issues_sequence (pf : Platform) (s : VertexArrayBuffer)
    (context : GraphicsContext) (drawAsLine : Bool) (range : IndicesRange)
    (hbuf : ¬ (s.m_staticBuffers = [] ∧ s.m_dynamicBuffers = []))
    (hidx : 0 < s.GetIndexCount) :
    (∀ calls, s.RenderRange pf context drawAsLine range = some calls →
      calls = renderSequence pf.vaoSupported s drawAsLine range ∧
      Call.IndexBufferBind ∈ calls ∧ Call.BindBuffers s.m_dynamicBuffers ∈ calls ∧
      (pf.vaoSupported = true →
        calls = [Call.Bind true, Call.BindBuffers s.m_dynamicBuffers, Call.IndexBufferBind,
          Call.RenderRange drawAsLine range, Call.Unbind])) ∧
    (∀ impl, s.m_impl = some impl → impl.m_program ≠ none →
      (pf.vaoSupported = true → impl.m_VAO ≠ 0) →
      (pf.vaoSupported = false → impl.BindBuffers s.m_staticBuffers = some ()) →
      impl.BindBuffers s.m_dynamicBuffers = some () →
      s.RenderRange pf context drawAsLine range
        = some (renderSequence pf.vaoSupported s drawAsLine range)) ∧
    s.Render pf context drawAsLine
      = s.RenderRange pf context drawAsLine ⟨0, s.GetIndexCount⟩ ∧
    (∀ (pf0 : Platform) (s0 : VertexArrayBuffer) (context0 : GraphicsContext)
      (program : GpuProgram), s0.m_staticBuffers ≠ [] →
      s0.Build pf0 context0 (some program) = some s →
      ∃ impl, s.m_impl = some impl ∧ impl.m_program ≠ none ∧
        (pf0.vaoSupported = true → impl.m_VAO ≠ 0)) := by
  refine ⟨?_, ?_, rfl, ?_⟩
  · intro calls h
    have hc := RenderRange_some hbuf hidx h
    subst hc
    refine ⟨rfl, ?_, ?_, ?_⟩
    · simp [renderSequence]
    · simp [renderSequence]
    · intro hv
      simp [renderSequence, hv]
  · intro impl hi hprog hvao hst hdy
    obtain ⟨calls, hc⟩ := RenderRange_isSome pf s context drawAsLine range hi hprog hvao hst
      hdy
    rw [hc, RenderRange_some hbuf hidx hc]
  · intro pf0 s0 context0 program hst h
    exact Build_backend_ready hst h

/-- Witness of C7 (as amended): `sampleBuiltState`, which the producer and a `Build` leave,
renders with the calls of the sequence for a platform without vertex-array objects. -/
theorem RenderRange_issues_sequence_witness :
    sampleBuilt = some sampleBuiltState ∧
    sampleBuiltState.RenderRange platformManualBind contextES3 false ⟨0, 3⟩
      = some [Call.Bind false, Call.BindBuffers sampleBuiltState.m_staticBuffers,
          Call.BindBuffers [], Call.IndexBufferBind, Call.RenderRange false ⟨0, 3⟩,
          Call.Unbind] :=
  ⟨by decide,
   (RenderRange_issues_sequence platformManualBind sampleBuiltState contextES3 false ⟨0, 3⟩
      (by decide) (by decide)).2.1 ⟨0, some sampleProgram⟩ rfl (by decide) (by decide)
      (by decide) (by decide)⟩

/-- C7 fails as stated: `sampleMissingAttributeState` is an orchestrator on which `Build`
has been called (and returned), which has a static buffer, a dynamic buffer and three
indices; the program given to `Build` does not know the attribute of the dynamic layout,
and a single `Render` stops at `assert(attributeLocation != -1)` of `BindBuffers` instead
of issuing the sequence. -/
theorem Render_aborts_on_unknown_attribute :
    sampleMissingAttribute = some sampleMissingAttributeState ∧
    sampleMissingAttributeState.m_dynamicBuffers ≠ [] ∧
    0 < sampleMissingAttributeState.GetIndexCount ∧
    sampleMissingAttributeState.Render platformCachedState contextES3 false = none ∧
    sampleMissingAttributeState.RenderRange platformCachedState contextES3 false ⟨0, 3⟩
      = none := by
  decide

/-! ## Index mutation -/

theorem readRaw_eq_take (data : List Nat) (count : Nat) (h : count ≤ data.length) :
    readRaw data count = data.take count := by
  apply List.ext_getElem
  · simp [readRaw, h]
  · intro i h1 h2
    simp only [readRaw, List.getElem_map, List.getElem_range, List.getElem_take]
    simp only [readRaw, List.length_map, List.length_range] at h1
    rw [List.getD_eq_getElem _ _ (by omega)]

/-- What `IndexBuffer::UpdateData` leaves when the size fits the capacity. -/
theorem DataBuffer.UpdateData_some (b : DataBuffer) (data : List Nat) (size : Nat)
    (h : size ≤ b.GetCapacity) :
    b.UpdateData data size
      = some { b with m_memory := readRaw data size ++ b.m_memory.drop size,
                      m_currentSize := size } := by
  have h1 : size ≤ DataBuffer.GetAvailableSize { b with m_currentSize := 0 } := by
    simpa [DataBuffer.GetAvailableSize, DataBuffer.GetCapacity] using h
  simp only [DataBuffer.UpdateData, DataBuffer.UploadData, if_pos h1, writeAt, List.take_zero,
    List.nil_append, Nat.zero_add, readRaw_length]

/-- The index part of `ApplyMutation` for a mutator whose index count is within its
capacity. -/
theorem mutateIndexBuffer_some (pf : Platform) (indexBuffer : DataBuffer)
    (mutator : IndexBufferMutator) (hwf : mutator.GetIndexCount ≤ mutator.GetCapacity) :
    ∃ result, VertexArrayBuffer.mutateIndexBuffer pf indexBuffer mutator = some result ∧
      result.content = mutator.GetIndexes.take mutator.GetIndexCount ∧
      result.GetCurrentSize = mutator.GetIndexCount ∧
      (mutator.GetCapacity > indexBuffer.GetCapacity →
        result.GetCapacity = mutator.GetCapacity ∧
        result.m_target = some Target.IndexBuffer ∧ result.m_gpuAllocations = 1 ∧
        result.m_memory = mutator.GetIndexes.take mutator.GetIndexCount
          ++ List.replicate (mutator.GetCapacity - mutator.GetIndexCount) 0) ∧
      (mutator.GetCapacity ≤ indexBuffer.GetCapacity →
        result.GetCapacity = indexBuffer.GetCapacity ∧
        result.m_target = indexBuffer.m_target ∧
        result.m_gpuAllocations = indexBuffer.m_gpuAllocations ∧
        result.m_elementSize = indexBuffer.m_elementSize ∧
        result.m_memory = mutator.GetIndexes.take mutator.GetIndexCount
          ++ indexBuffer.m_memory.drop mutator.GetIndexCount) := by
  have hraw := readRaw_eq_take mutator.GetIndexes mutator.GetIndexCount hwf
  have htl : (mutator.GetIndexes.take mutator.GetIndexCount).length = mutator.GetIndexCount := by
    rw [List.length_take]; exact Nat.min_eq_left hwf
  by_cases hc : mutator.GetCapacity > indexBuffer.GetCapacity
  · have hfit : mutator.GetIndexCount ≤ DataBuffer.GetCapacity
        ((DataBuffer.create pf.sizeOfIndex mutator.GetCapacity).MoveToGPU Target.IndexBuffer) := by
      simpa [DataBuffer.GetCapacity, DataBuffer.create, DataBuffer.MoveToGPU] using hwf
    have hm : VertexArrayBuffer.mutateIndexBuffer pf indexBuffer mutator
        = DataBuffer.UpdateData ((DataBuffer.create pf.sizeOfIndex
            mutator.GetCapacity).MoveToGPU Target.IndexBuffer) mutator.GetIndexes
            mutator.GetIndexCount := by
      simp only [VertexArrayBuffer.mutateIndexBuffer, if_pos hc]
    rw [hm, DataBuffer.UpdateData_some _ _ _ hfit]
    refine ⟨_, rfl, ?_, ?_, ?_, ?_⟩
    · simp only [DataBuffer.content, hraw]
      rw [List.take_append_of_le_length (by rw [htl])]
      rw [List.take_of_length_le (by rw [htl])]
    · rfl
    · intro _
      refine ⟨?_, rfl, rfl, ?_⟩
      · simp only [DataBuffer.GetCapacity, hraw, List.length_append, htl, List.length_drop,
          DataBuffer.create, DataBuffer.MoveToGPU, List.length_replicate]
        omega
      · simp only [hraw, DataBuffer.create, DataBuffer.MoveToGPU, List.drop_replicate]
    · intro hle
      omega
  · have hle : mutator.GetCapacity ≤ indexBuffer.GetCapacity := by omega
    have hfit : mutator.GetIndexCount ≤ indexBuffer.GetCapacity := by omega
    have hm : VertexArrayBuffer.mutateIndexBuffer pf indexBuffer mutator
        = DataBuffer.UpdateData indexBuffer mutator.GetIndexes mutator.GetIndexCount := by
      simp only [VertexArrayBuffer.mutateIndexBuffer, if_neg hc]
    rw [hm, DataBuffer.UpdateData_some _ _ _ hfit]
    refine ⟨_, rfl, ?_, ?_, ?_, ?_⟩
    · simp only [DataBuffer.content, hraw]
      rw [List.take_append_of_le_length (by rw [htl])]
      rw [List.take_of_length_le (by rw [htl])]
    · rfl
    · intro h; omega
    · intro _
      refine ⟨?_, rfl, rfl, rfl, ?_⟩
      · simp only [DataBuffer.GetCapacity, hraw, List.length_append, htl, List.length_drop]
        simp only [DataBuffer.GetCapacity] at hfit
        omega
      · simp only [hraw]

/-- A call of `ApplyMutation` with an index mutator leaves the index buffer its index part
computes. -/
theorem ApplyMutation_indexBuffer {pf : Platform} {s s1 : VertexArrayBuffer}
    {context : GraphicsContext} {mutator : IndexBufferMutator}
    {attrMutator : Option AttributeBufferMutator}
    (h : s.ApplyMutation pf context (some mutator) attrMutator = some s1) :
    VertexArrayBuffer.mutateIndexBuffer pf s.m_indexBuffer mutator = some s1.m_indexBuffer := by
  unfold VertexArrayBuffer.ApplyMutation at h
  split at h
  · exact absurd h (by simp)
  · simp only at h
    split at h
    · exact absurd h (by simp)
    · rename_i ib hib
      rw [hib]
      split at h
      · split at h
        · exact absurd h (by simp)
        · simp only [Option.some.injEq] at h; rw [← h]
      · split at h
        · exact absurd h (by simp)
        · split at h
          · exact absurd h (by simp)
          · simp only [Option.some.injEq] at h; rw [← h]
/-- C9: for every `ApplyMutation` call with an index mutator (whose index count is within
its capacity) that returns, if the capacity of the mutator is greater than the capacity of
the current index buffer, the orchestrator afterwards holds a new, materialized index
buffer whose capacity is exactly the capacity of the mutator and whose content is the full
index data of the mutator, with current size equal to the index count of the mutator and
nothing of the old buffer surviving (the rest of the storage is that of a fresh buffer); if
the capacity of the mutator does not exceed the current capacity, the existing index
buffer is kept (same capacity, same GPU-side buffer) and only its content is replaced by
the data of the mutator. The call returns whenever its initial `Bind` passes and there is
no attribute mutator. -/
theorem ApplyMutation_replaces_index_buffer (pf : Platform) (s : VertexArrayBuffer)
    (context : GraphicsContext) (mutator : IndexBufferMutator)
    (attrMutator : Option AttributeBufferMutator)
    (hwf : mutator.GetIndexCount ≤ mutator.GetCapacity) :
    (∀ s1, s.ApplyMutation pf context (some mutator) attrMutator = some s1 →
      s1.m_indexBuffer.content = mutator.GetIndexes.take mutator.GetIndexCount ∧
      s1.m_indexBuffer.GetCurrentSize = mutator.GetIndexCount ∧
      (mutator.GetCapacity > s.m_indexBuffer.GetCapacity →
        s1.m_indexBuffer.GetCapacity = mutator.GetCapacity ∧
        s1.m_indexBuffer.m_target = some Target.IndexBuffer ∧
        s1.m_indexBuffer.m_gpuAllocations = 1 ∧
        s1.m_indexBuffer.m_memory = mutator.GetIndexes.take mutator.GetIndexCount
          ++ List.replicate (mutator.GetCapacity - mutator.GetIndexCount) 0) ∧
      (mutator.GetCapacity ≤ s.m_indexBuffer.GetCapacity →
        s1.m_indexBuffer.GetCapacity = s.m_indexBuffer.GetCapacity ∧
        s1.m_indexBuffer.m_target = s.m_indexBuffer.m_target ∧
        s1.m_indexBuffer.m_gpuAllocations = s.m_indexBuffer.m_gpuAllocations ∧
        s1.m_indexBuffer.m_elementSize = s.m_indexBuffer.m_elementSize ∧
        s1.m_indexBuffer.m_memory = mutator.GetIndexes.take mutator.GetIndexCount
          ++ s.m_indexBuffer.m_memory.drop mutator.GetIndexCount)) ∧
    (∀ used, s.Bind pf = some used →
      ∃ s1, s.ApplyMutation pf context (some mutator) none = some s1) := by
  obtain ⟨result, hres, hprops⟩ := mutateIndexBuffer_some pf s.m_indexBuffer mutator hwf
  refine ⟨?_, ?_⟩
  · intro s1 h
    have h1 := ApplyMutation_indexBuffer h
    rw [hres] at h1
    simp only [Option.some.injEq] at h1
    rw [← h1]
    exact hprops
  · intro used hbind
    have himpl : ∃ impl, s.m_impl = some impl := by
      cases hi : s.m_impl with
      | none => simp [VertexArrayBuffer.Bind, hi] at hbind
      | some impl => exact ⟨impl, rfl⟩
    obtain ⟨impl, hi⟩ := himpl
    simp [VertexArrayBuffer.ApplyMutation, hbind, hres, VertexArrayBuffer.Unbind, hi,
      GLVertexArrayBufferImpl.Unbind]

/-- Witness of C9: on `sampleBuiltState`, whose index buffer has capacity 6, a mutator of
capacity 8 with 7 indices. -/
theorem ApplyMutation_replaces_index_buffer_witness :
    ∃ s1, sampleBuiltState.ApplyMutation platformManualBind contextES3
        (some ⟨[5, 4, 3, 2, 1, 0, 9, 9], 7⟩) none = some s1 ∧
      s1.m_indexBuffer.GetCapacity = 8 ∧
      s1.m_indexBuffer.content = [5, 4, 3, 2, 1, 0, 9] ∧
      s1.m_indexBuffer.GetCurrentSize = 7 ∧
      s1.m_indexBuffer.m_memory = [5, 4, 3, 2, 1, 0, 9, 0] := by
  obtain ⟨s1, h1⟩ := (ApplyMutation_replaces_index_buffer platformManualBind sampleBuiltState
    contextES3 ⟨[5, 4, 3, 2, 1, 0, 9, 9], 7⟩ none (by decide)).2 false (by decide)
  obtain ⟨a, b, c, _⟩ := (ApplyMutation_replaces_index_buffer platformManualBind
    sampleBuiltState contextES3 ⟨[5, 4, 3, 2, 1, 0, 9, 9], 7⟩ none (by decide)).1 s1 h1
  obtain ⟨c1, _, _, c4⟩ := c (by decide)
  exact ⟨s1, h1, c1, a, b, c4⟩

/-! ## Static buffers in lockstep -/

namespace BuffersMap

theorem find_eq_none_iff (m : BuffersMap) (k : BindingInfo) :
    find m k = none ↔ k ∉ keys m := by
  induction m with
  | nil => simp [find, keys]
  | cons kb rest ih =>
    obtain ⟨k0, b0⟩ := kb
    by_cases h : k0 = k
    · simp [find, keys, h]
    · simp only [find, if_neg h, ih, keys, List.map_cons, List.mem_cons, not_or]
      exact ⟨fun hr => ⟨fun e => h e.symm, hr⟩, fun hr => hr.2⟩

theorem mem_of_find {m : BuffersMap} {k : BindingInfo} {b : DataBuffer}
    (h : find m k = some b) : (k, b) ∈ m := by
  induction m with
  | nil => simp [find] at h
  | cons kb rest ih =>
    obtain ⟨k0, b0⟩ := kb
    by_cases hk : k0 = k
    · simp only [find, if_pos hk, Option.some.injEq] at h
      subst hk; subst h
      exact List.mem_cons_self _ _
    · simp only [find, if_neg hk] at h
      exact List.mem_cons_of_mem _ (ih h)

theorem mem_keys_of_mem {m : BuffersMap} {kb : BindingInfo × DataBuffer} (h : kb ∈ m) :
    kb.1 ∈ keys m := List.mem_map_of_mem Prod.fst h

theorem mem_insert (m : BuffersMap) (k : BindingInfo) (b : DataBuffer)
    (kb : BindingInfo × DataBuffer) : kb ∈ insert m k b ↔ kb = (k, b) ∨ kb ∈ m := by
  induction m with
  | nil => simp [insert]
  | cons kb0 rest ih =>
    obtain ⟨k0, b0⟩ := kb0
    by_cases h : k.less k0 = true
    · simp [insert, h]
    · simp only [insert, h, Bool.false_eq_true, if_false, List.mem_cons, ih]
      tauto

theorem keys_insert_perm (m : BuffersMap) (k : BindingInfo) (b : DataBuffer) :
    (keys (insert m k b)).Perm (k :: keys m) := by
  induction m with
  | nil => simp [insert, keys]
  | cons kb0 rest ih =>
    obtain ⟨k0, b0⟩ := kb0
    by_cases h : k.less k0 = true
    · simp [insert, h, keys]
    · simp only [insert, h, Bool.false_eq_true, if_false, keys, List.map_cons]
      exact (List.Perm.cons k0 ih).trans (List.Perm.swap k k0 _)

theorem keys_update (m : BuffersMap) (k : BindingInfo) (b : DataBuffer) :
    keys (update m k b) = keys m := by
  induction m with
  | nil => rfl
  | cons kb0 rest ih =>
    obtain ⟨k0, b0⟩ := kb0
    by_cases h : k0 = k
    · simp [update, h, keys]
    · simp only [update, if_neg h, keys, List.map_cons] at ih ⊢
      rw [ih]

theorem mem_update {m : BuffersMap} {k : BindingInfo} (b : DataBuffer)
    (hnd : (keys m).Nodup) (hk : k ∈ keys m) (kb : BindingInfo × DataBuffer) :
    kb ∈ update m k b ↔ kb = (k, b) ∨ (kb ∈ m ∧ kb.1 ≠ k) := by
  induction m with
  | nil => simp [keys] at hk
  | cons kb0 rest ih =>
    obtain ⟨k0, b0⟩ := kb0
    simp only [keys, List.map_cons, List.nodup_cons] at hnd
    by_cases h : k0 = k
    · subst h
      simp only [update, if_true, List.mem_cons]
      constructor
      · rintro (h1 | h1)
        · exact Or.inl h1
        · refine Or.inr ⟨Or.inr h1, fun e => hnd.1 ?_⟩
          rw [← e]; exact mem_keys_of_mem h1
      · rintro (h1 | ⟨h1 | h1, h2⟩)
        · exact Or.inl h1
        · exact absurd (by rw [h1]) h2
        · exact Or.inr h1
    · have hk1 : k ∈ keys rest := by
        simp only [keys, List.map_cons, List.mem_cons] at hk
        rcases hk with e | e
        · exact absurd e.symm h
        · exact e
      simp only [update, if_neg h, List.mem_cons, ih hnd.2 hk1]
      constructor
      · rintro (h1 | h1 | ⟨h1, h2⟩)
        · refine Or.inr ⟨Or.inl h1, ?_⟩
          rw [h1]; exact h
        · exact Or.inl h1
        · exact Or.inr ⟨Or.inr h1, h2⟩
      · rintro (h1 | ⟨h1 | h1, h2⟩)
        · exact Or.inr (Or.inl h1)
        · exact Or.inl h1
        · exact Or.inr (Or.inr ⟨h1, h2⟩)

end BuffersMap

/-- An append that fits leaves the capacity and advances the current size. -/
theorem DataBuffer.UploadData_some (b : DataBuffer) (data : List Nat) (count : Nat)
    (h : b.m_currentSize + count ≤ b.GetCapacity) :
    ∃ b1, b.UploadData data count = some b1 ∧ b1.m_currentSize = b.m_currentSize + count ∧
      b1.GetCapacity = b.GetCapacity := by
  have h1 : count ≤ b.GetAvailableSize := by
    simp only [DataBuffer.GetAvailableSize]; omega
  simp only [DataBuffer.UploadData, if_pos h1]
  refine ⟨_, rfl, rfl, ?_⟩
  simp only [DataBuffer.GetCapacity]
  apply writeAt_length
  rw [readRaw_length]
  exact h

theorem BuffersMap.find_insert_self {m : BuffersMap} {k : BindingInfo} (b : DataBuffer)
    (h : BuffersMap.find m k = none) : BuffersMap.find (BuffersMap.insert m k b) k = some b := by
  induction m with
  | nil => simp [BuffersMap.insert, BuffersMap.find]
  | cons kb0 rest ih =>
    obtain ⟨k0, b0⟩ := kb0
    by_cases hk : k0 = k
    · simp [BuffersMap.find, hk] at h
    · simp only [BuffersMap.find, if_neg hk] at h
      by_cases hl : k.less k0 = true
      · simp [BuffersMap.insert, hl, BuffersMap.find]
      · simp only [BuffersMap.insert, hl, Bool.false_eq_true, if_false, BuffersMap.find,
          if_neg hk]
        exact ih h

/-- What one `UploadData` to a static layout does to the static buffers: the buffer of the
layout, created if it was missing, receives the data; the other buffers stay as they are. -/
theorem UploadData_static_spec (s : VertexArrayBuffer) (k : BindingInfo) (data : List Nat)
    (c : Nat) (hk : k.IsDynamic = false) (hnd : (BuffersMap.keys s.m_staticBuffers).Nodup)
    (b0 : DataBuffer)
    (hb0 : BuffersMap.find s.m_staticBuffers k = some b0 ∨
      (BuffersMap.find s.m_staticBuffers k = none ∧
        b0 = DataBuffer.create k.GetElementSize s.m_dataBufferSize))
    (hfit : b0.m_currentSize + c ≤ b0.GetCapacity) :
    ∃ s1 b1, s.UploadData k data c = some s1 ∧ s1.m_dataBufferSize = s.m_dataBufferSize ∧
      b1.m_currentSize = b0.m_currentSize + c ∧ b1.GetCapacity = b0.GetCapacity ∧
      (∀ kb, kb ∈ s1.m_staticBuffers ↔ kb = (k, b1) ∨ (kb ∈ s.m_staticBuffers ∧ kb.1 ≠ k)) ∧
      (BuffersMap.keys s1.m_staticBuffers).Nodup := by
  obtain ⟨b1, hup, hsz, hcap⟩ := DataBuffer.UploadData_some b0 data c hfit
  rcases hb0 with hf | ⟨hf, hb⟩
  · have hkm : k ∈ BuffersMap.keys s.m_staticBuffers :=
      BuffersMap.mem_keys_of_mem (BuffersMap.mem_of_find hf)
    refine ⟨{ s with m_staticBuffers := BuffersMap.update s.m_staticBuffers k b1,
                     m_isChanged := (if c > 0 then true else s.m_isChanged) }, b1, ?_, rfl, hsz,
      hcap, ?_, ?_⟩
    · simp [VertexArrayBuffer.UploadData, hk, VertexArrayBuffer.GetOrCreateBuffer, hf,
        VertexArrayBuffer.uploadInto, hup]
    · intro kb
      exact BuffersMap.mem_update b1 hnd hkm kb
    · simp only [BuffersMap.keys_update]
      exact hnd
  · have hkm : k ∉ BuffersMap.keys s.m_staticBuffers :=
      (BuffersMap.find_eq_none_iff _ _).mp hf
    have hperm := BuffersMap.keys_insert_perm s.m_staticBuffers k b0
    have hnd1 : (BuffersMap.keys (BuffersMap.insert s.m_staticBuffers k b0)).Nodup :=
      hperm.nodup_iff.mpr (List.nodup_cons.mpr ⟨hkm, hnd⟩)
    have hkm1 : k ∈ BuffersMap.keys (BuffersMap.insert s.m_staticBuffers k b0) :=
      hperm.mem_iff.mpr (List.mem_cons_self _ _)
    refine ⟨{ s with
        m_staticBuffers := BuffersMap.update (BuffersMap.insert s.m_staticBuffers k b0) k b1,
        m_isChanged := (if c > 0 then true else s.m_isChanged) }, b1, ?_, rfl, hsz,
      hcap, ?_, ?_⟩
    · simp [VertexArrayBuffer.UploadData, hk, VertexArrayBuffer.GetOrCreateBuffer, hf,
        VertexArrayBuffer.uploadInto, ← hb, BuffersMap.find_insert_self b0 hf, hup]
    · intro kb
      simp only [BuffersMap.mem_update b1 hnd1 hkm1 kb, BuffersMap.mem_insert]
      constructor
      · rintro (h1 | ⟨h1 | h1, h2⟩)
        · exact Or.inl h1
        · exact absurd (by rw [h1]) h2
        · exact Or.inr ⟨h1, h2⟩
      · rintro (h1 | ⟨h1, h2⟩)
        · exact Or.inl h1
        · exact Or.inr ⟨Or.inr h1, h2⟩
    · simp only [BuffersMap.keys_update]
      exact hnd1

theorem BuffersMap.mem_keys_iff {m : BuffersMap} {k : BindingInfo} :
    k ∈ BuffersMap.keys m ↔ ∃ b, (k, b) ∈ m := by
  simp [BuffersMap.keys]

/-- One round of uploads of `c` elements to pairwise different static layouts: the buffers
of the layouts still to be written hold `n` elements, all the others `n + c`; after the
round every static buffer holds `n + c` elements. -/
theorem uploadRound_spec (c n D : Nat) (hfit : n + c ≤ D) :
    ∀ (todo : List (BindingInfo × List Nat)) (s : VertexArrayBuffer),
      (todo.map Prod.fst).Nodup → (∀ t ∈ todo, t.1.IsDynamic = false) →
      s.m_dataBufferSize = D → (BuffersMap.keys s.m_staticBuffers).Nodup →
      (∀ kb ∈ s.m_staticBuffers, kb.2.GetCapacity = D ∧
        kb.2.m_currentSize = if kb.1 ∈ todo.map Prod.fst then n else n + c) →
      (n ≠ 0 → ∀ k ∈ todo.map Prod.fst, k ∈ BuffersMap.keys s.m_staticBuffers) →
      ∃ s1, uploadRound s c todo = some s1 ∧ s1.m_dataBufferSize = D ∧
        (BuffersMap.keys s1.m_staticBuffers).Nodup ∧
        (∀ kb ∈ s1.m_staticBuffers, kb.2.GetCapacity = D ∧ kb.2.m_currentSize = n + c) ∧
        (∀ k ∈ todo.map Prod.fst, k ∈ BuffersMap.keys s1.m_staticBuffers) ∧
        (∀ k ∈ BuffersMap.keys s.m_staticBuffers, k ∈ BuffersMap.keys s1.m_staticBuffers) ∧
        (∀ k ∈ BuffersMap.keys s1.m_staticBuffers,
          k ∈ BuffersMap.keys s.m_staticBuffers ∨ k ∈ todo.map Prod.fst) := by
  intro todo
  induction todo with
  | nil =>
    intro s _ _ hD hnd hsz _
    refine ⟨s, rfl, hD, hnd, ?_, ?_, fun k hk => hk, fun k hk => Or.inl hk⟩
    · intro kb hkb
      have := hsz kb hkb
      simpa using this
    · intro k hk
      simp at hk
  | cons t rest ih =>
    intro s htodo hst hD hnd hsz hpres
    obtain ⟨k, data⟩ := t
    simp only [List.map_cons, List.nodup_cons] at htodo
    obtain ⟨hknot, hrest⟩ := htodo
    have hkst : k.IsDynamic = false := hst (k, data) (List.mem_cons_self _ _)
    -- the buffer that receives the data
    have hb0 : ∃ b0, (BuffersMap.find s.m_staticBuffers k = some b0 ∨
        (BuffersMap.find s.m_staticBuffers k = none ∧
          b0 = DataBuffer.create k.GetElementSize s.m_dataBufferSize)) ∧
        b0.m_currentSize = n ∧ b0.GetCapacity = D := by
      cases hf : BuffersMap.find s.m_staticBuffers k with
      | some b0 =>
        have hm := hsz (k, b0) (BuffersMap.mem_of_find hf)
        refine ⟨b0, Or.inl rfl, ?_, hm.1⟩
        have := hm.2
        simpa using this
      | none =>
        have hkm : k ∉ BuffersMap.keys s.m_staticBuffers :=
          (BuffersMap.find_eq_none_iff _ _).mp hf
        have hn : n = 0 := by
          by_contra hne
          exact hkm (hpres hne k (List.mem_cons_self _ _))
        refine ⟨_, Or.inr ⟨rfl, rfl⟩, ?_, ?_⟩
        · simp [DataBuffer.create, hn]
        · simp [DataBuffer.create, DataBuffer.GetCapacity, hD]
    obtain ⟨b0, hb0, hb0s, hb0c⟩ := hb0
    obtain ⟨s1, b1, hup, hD1, hb1s, hb1c, hmem, hnd1⟩ :=
      UploadData_static_spec s k data c hkst hnd b0 hb0 (by omega)
    have hk1 : k ∈ BuffersMap.keys s1.m_staticBuffers :=
      BuffersMap.mem_keys_iff.mpr ⟨b1, (hmem (k, b1)).mpr (Or.inl rfl)⟩
    have hmono : ∀ k' ∈ BuffersMap.keys s.m_staticBuffers,
        k' ∈ BuffersMap.keys s1.m_staticBuffers := by
      intro k' hk'
      obtain ⟨b, hb⟩ := BuffersMap.mem_keys_iff.mp hk'
      by_cases e : k' = k
      · rw [e]; exact hk1
      · exact BuffersMap.mem_keys_iff.mpr ⟨b, (hmem (k', b)).mpr (Or.inr ⟨hb, e⟩)⟩
    obtain ⟨s2, hr, hD2, hnd2, hsz2, hall2, hmono2, hsub2⟩ := ih s1 hrest
      (fun t ht => hst t (List.mem_cons_of_mem _ ht)) (hD1.trans hD) hnd1
      (by
        intro kb hkb
        rcases (hmem kb).mp hkb with e | ⟨hold, hne⟩
        · subst e
          refine ⟨by rw [hb1c, hb0c], ?_⟩
          simp only [if_neg hknot]
          omega
        · obtain ⟨h1, h2⟩ := hsz kb hold
          refine ⟨h1, ?_⟩
          rw [h2]
          simp only [List.map_cons, List.mem_cons, hne, false_or])
      (by
        intro hn k' hk'
        have hk'' := hpres hn k' (List.mem_cons_of_mem _ hk')
        exact hmono k' hk'')
    refine ⟨s2, ?_, hD2, hnd2, hsz2, ?_, ?_, ?_⟩
    · simp only [uploadRound, hup]
      exact hr
    · intro k' hk'
      rcases List.mem_cons.mp hk' with e | e
      · rw [e]; exact hmono2 k hk1
      · exact hall2 k' e
    · intro k' hk'
      exact hmono2 k' (hmono k' hk')
    · intro k' hk'
      rcases hsub2 k' hk' with h1 | h1
      · obtain ⟨b, hb⟩ := BuffersMap.mem_keys_iff.mp h1
        rcases (hmem (k', b)).mp hb with e | ⟨hold, _⟩
        · simp only [Prod.mk.injEq] at e
          exact Or.inr (by rw [e.1]; exact List.mem_cons_self _ _)
        · exact Or.inl (BuffersMap.mem_keys_iff.mpr ⟨b, hold⟩)
      · exact Or.inr (List.mem_cons_of_mem _ h1)

/-- Rounds of uploads of `c` elements to the same pairwise different static layouts, in any
order within a round, keep all static buffers at the same current size. -/
theorem uploadRounds_spec (layouts : List BindingInfo) (c D : Nat) (hnd : layouts.Nodup)
    (hst : ∀ k ∈ layouts, k.IsDynamic = false) :
    ∀ (rounds : List (List (BindingInfo × List Nat))) (s : VertexArrayBuffer) (n : Nat),
      (∀ r ∈ rounds, (r.map Prod.fst).Perm layouts) → s.m_dataBufferSize = D →
      (BuffersMap.keys s.m_staticBuffers).Nodup →
      (∀ kb ∈ s.m_staticBuffers, kb.2.GetCapacity = D ∧ kb.2.m_currentSize = n) →
      (∀ k ∈ BuffersMap.keys s.m_staticBuffers, k ∈ layouts) →
      (n ≠ 0 → ∀ k ∈ layouts, k ∈ BuffersMap.keys s.m_staticBuffers) →
      n + rounds.length * c ≤ D →
      ∃ s1, uploadRounds s c rounds = some s1 ∧ s1.m_dataBufferSize = D ∧
        (∀ kb ∈ s1.m_staticBuffers, kb.2.GetCapacity = D ∧
          kb.2.m_currentSize = n + rounds.length * c) ∧
        (∀ k ∈ BuffersMap.keys s.m_staticBuffers, k ∈ BuffersMap.keys s1.m_staticBuffers) ∧
        (rounds ≠ [] → ∀ k ∈ layouts, k ∈ BuffersMap.keys s1.m_staticBuffers) ∧
        (∀ k ∈ BuffersMap.keys s1.m_staticBuffers, k ∈ layouts) := by
  intro rounds
  induction rounds with
  | nil =>
    intro s n _ hD _ hsz hsub _ _
    refine ⟨s, rfl, hD, ?_, fun k hk => hk, fun h => absurd rfl h, hsub⟩
    simpa using hsz
  | cons r rest ih =>
    intro s n hr hD hnds hsz hsub hpres hfit
    have hrk : (r.map Prod.fst).Perm layouts := hr r (List.mem_cons_self _ _)
    have hmem : ∀ k, k ∈ r.map Prod.fst ↔ k ∈ layouts := fun k => hrk.mem_iff
    have hmul : (rest.length + 1) * c = rest.length * c + c := Nat.succ_mul _ _
    simp only [List.length_cons, hmul] at hfit ⊢
    obtain ⟨s1, h1, hD1, hnd1, hsz1, hall1, hmono1, hsub1⟩ := uploadRound_spec c n D (by omega) r s
      (hrk.nodup_iff.mpr hnd)
      (by
        intro t ht
        exact hst t.1 ((hmem t.1).mp (List.mem_map_of_mem Prod.fst ht)))
      hD hnds
      (by
        intro kb hkb
        obtain ⟨a, b⟩ := hsz kb hkb
        refine ⟨a, ?_⟩
        rw [if_pos ((hmem kb.1).mpr (hsub kb.1 (BuffersMap.mem_keys_of_mem hkb)))]
        exact b)
      (fun hn k hk => hpres hn k ((hmem k).mp hk))
    have hall1' : ∀ k ∈ layouts, k ∈ BuffersMap.keys s1.m_staticBuffers :=
      fun k hk => hall1 k ((hmem k).mpr hk)
    obtain ⟨s2, h2, hD2, hsz2, hmono2, _, hsub2⟩ := ih s1 (n + c)
      (fun r' hr' => hr r' (List.mem_cons_of_mem _ hr')) hD1 hnd1 hsz1
      (fun k hk => (hsub1 k hk).elim (hsub k) (hmem k).mp) (fun _ => hall1') (by omega)
    refine ⟨s2, ?_, hD2, ?_, ?_, ?_, hsub2⟩
    · simp only [uploadRounds, h1]
      exact h2
    · intro kb hkb
      obtain ⟨a, b⟩ := hsz2 kb hkb
      exact ⟨a, by omega⟩
    · intro k hk
      exact hmono2 k (hmono1 k hk)
    · intro _ k hk
      exact hmono2 k (hall1' k hk)

/-- The accessors on an orchestrator whose static buffers all hold `n` elements of a
capacity `D`. -/
theorem accessors_of_uniform (s : VertexArrayBuffer) (n : Nat)
    (hsz : ∀ kb ∈ s.m_staticBuffers, kb.2.GetCapacity = s.m_dataBufferSize ∧
      kb.2.m_currentSize = n)
    (hempty : s.m_staticBuffers = [] → n = 0) :
    s.GetAvailableVertexCount = some (s.m_dataBufferSize - n) ∧
    s.GetStartIndexValue = some n := by
  cases hm : s.m_staticBuffers with
  | nil =>
    have := hempty hm
    subst this
    simp [VertexArrayBuffer.GetAvailableVertexCount, VertexArrayBuffer.GetStartIndexValue, hm]
  | cons kb rest =>
    rw [hm] at hsz
    obtain ⟨k, first⟩ := kb
    have hfirst : first.GetCapacity = s.m_dataBufferSize ∧ first.m_currentSize = n :=
      hsz (k, first) (List.mem_cons_self _ _)
    have hav : ∀ kb ∈ (k, first) :: rest,
        first.GetAvailableSize = kb.2.GetAvailableSize := by
      intro kb hkb
      have := hsz kb hkb
      simp only [DataBuffer.GetAvailableSize, this.1, this.2, hfirst.1, hfirst.2]
    have hcs : ∀ kb ∈ (k, first) :: rest,
        first.GetCurrentSize = kb.2.GetCurrentSize := by
      intro kb hkb
      have := hsz kb hkb
      simp only [DataBuffer.GetCurrentSize, this.2, hfirst.2]
    refine ⟨?_, ?_⟩
    · simp only [VertexArrayBuffer.GetAvailableVertexCount, hm]
      rw [if_pos (by simpa using hav)]
      simp only [DataBuffer.GetAvailableSize, hfirst.1, hfirst.2]
    · simp only [VertexArrayBuffer.GetStartIndexValue, hm]
      rw [if_pos (by simpa using hcs)]
      simp only [DataBuffer.GetCurrentSize, hfirst.2]

/-- C8 (as amended): for every sequence of complete rounds of `UploadData` calls, where
each round writes the same count once to each layout of one fixed set of pairwise
different static layouts, in any order within the round, starting on an orchestrator
without static buffers and staying within the configured capacity, every call returns and
after each complete round all static buffers of the orchestrator have the same current size
(rounds times count) and the same available count, so `AvailableVertexCount()` and
`StartIndexValue()` pass their debug uniformity assertions and return the available count
and the current size of every static buffer, whichever is consulted. -/
theorem UploadData_rounds_lockstep (s : VertexArrayBuffer) (layouts : List BindingInfo)
    (count : Nat) (rounds : List (List (BindingInfo × List Nat)))
    (hs : s.m_staticBuffers = []) (hnd : layouts.Nodup)
    (hst : ∀ layout ∈ layouts, layout.IsDynamic = false)
    (hr : ∀ round ∈ rounds, (round.map Prod.fst).Perm layouts)
    (hcap : rounds.length * count ≤ s.m_dataBufferSize) :
    ∃ s1, uploadRounds s count rounds = some s1 ∧
      (∀ kb ∈ s1.m_staticBuffers, kb.2.GetCurrentSize = rounds.length * count ∧
        kb.2.GetAvailableSize = s.m_dataBufferSize - rounds.length * count) ∧
      (∃ available start, s1.GetAvailableVertexCount = some available ∧
        s1.GetStartIndexValue = some start ∧
        ∀ kb ∈ s1.m_staticBuffers, kb.2.GetAvailableSize = available ∧
          kb.2.GetCurrentSize = start) ∧
      (layouts ≠ [] →
        s1.GetAvailableVertexCount = some (s.m_dataBufferSize - rounds.length * count) ∧
        s1.GetStartIndexValue = some (rounds.length * count)) := by
  obtain ⟨s1, h1, hD, hsz, _, hall, hsub⟩ := uploadRounds_spec layouts count s.m_dataBufferSize
    hnd hst rounds s 0 hr rfl (by simp [hs, BuffersMap.keys]) (by simp [hs])
    (by simp [hs, BuffersMap.keys]) (fun h => absurd rfl h) (by omega)
  simp only [Nat.zero_add] at hsz
  have hsizes : ∀ kb ∈ s1.m_staticBuffers, kb.2.GetCurrentSize = rounds.length * count ∧
      kb.2.GetAvailableSize = s.m_dataBufferSize - rounds.length * count := by
    intro kb hkb
    obtain ⟨a, b⟩ := hsz kb hkb
    exact ⟨b, by simp only [DataBuffer.GetAvailableSize, a, b]⟩
  have hfull : (s1.m_staticBuffers = [] → rounds.length * count = 0) →
      s1.GetAvailableVertexCount = some (s.m_dataBufferSize - rounds.length * count) ∧
      s1.GetStartIndexValue = some (rounds.length * count) := by
    intro hempty
    obtain ⟨ha, hb⟩ := accessors_of_uniform s1 (rounds.length * count)
      (by rw [hD]; exact hsz) hempty
    rw [hD] at ha
    exact ⟨ha, hb⟩
  refine ⟨s1, h1, hsizes, ?_, ?_⟩
  · cases hm : s1.m_staticBuffers with
    | nil =>
      refine ⟨s1.m_dataBufferSize, 0, ?_, ?_, ?_⟩
      · simp [VertexArrayBuffer.GetAvailableVertexCount, hm]
      · simp [VertexArrayBuffer.GetStartIndexValue, hm]
      · intro kb hkb
        simp at hkb
    | cons kb0 rest =>
      obtain ⟨ha, hb⟩ := hfull (fun he => by rw [hm] at he; exact absurd he (by simp))
      refine ⟨_, _, ha, hb, ?_⟩
      intro kb hkb
      rw [← hm] at hkb
      exact ⟨(hsizes kb hkb).2, (hsizes kb hkb).1⟩
  · intro hne
    apply hfull
    intro he
    cases hrounds : rounds with
    | nil => simp
    | cons r rest =>
      exfalso
      obtain ⟨l, ls, rfl⟩ := List.exists_cons_of_ne_nil hne
      have := hall (by rw [hrounds]; simp) l (List.mem_cons_self _ _)
      simp [he, BuffersMap.keys] at this

/-- Witness of C8 (as amended): two rounds of two vertices to `layoutPosition` and
`layoutNormal` on a fresh orchestrator of capacity 10, the second round in the other
order. -/
theorem UploadData_rounds_lockstep_witness :
    ∃ s1, uploadRounds (VertexArrayBuffer.create platformManualBind 6 10) 2
        [[(layoutPosition, [1, 2]), (layoutNormal, [3, 4])],
         [(layoutNormal, [7, 8]), (layoutPosition, [5, 6])]] = some s1 ∧
      s1.GetAvailableVertexCount = some 6 ∧ s1.GetStartIndexValue = some 4 := by
  obtain ⟨s1, h1, _, _, hfull⟩ := UploadData_rounds_lockstep
    (VertexArrayBuffer.create platformManualBind 6 10) [layoutPosition, layoutNormal] 2
    [[(layoutPosition, [1, 2]), (layoutNormal, [3, 4])],
     [(layoutNormal, [7, 8]), (layoutPosition, [5, 6])]]
    rfl (by decide) (by decide)
    (by
      intro round hround
      simp only [List.mem_cons, List.mem_singleton, List.not_mem_nil, or_false] at hround
      rcases hround with rfl | rfl
      · exact List.Perm.refl _
      · exact List.Perm.swap _ _ _)
    (by decide)
  obtain ⟨ha, hb⟩ := hfull (by simp)
  exact ⟨s1, h1, ha, hb⟩

/-- C8 fails as stated: three `UploadData` calls to static layouts, each writing one vertex
(`layoutPosition`, `layoutNormal`, `layoutPosition`), return and leave the two static
buffers with the available counts 9 and 8, and the uniformity assertions of
`GetAvailableVertexCount` and `GetStartIndexValue` fail. -/
theorem UploadData_same_count_not_lockstep :
    ((((VertexArrayBuffer.create platformManualBind 6 10).UploadData layoutPosition [1] 1).bind
        (fun s => s.UploadData layoutNormal [2] 1)).bind
        (fun s => s.UploadData layoutPosition [3] 1)).map
      (fun s => s.m_staticBuffers.map (fun kb => (kb.1, kb.2.GetAvailableSize)))
      = some [(layoutNormal, 9), (layoutPosition, 8)] ∧
    ((((VertexArrayBuffer.create platformManualBind 6 10).UploadData layoutPosition [1] 1).bind
        (fun s => s.UploadData layoutNormal [2] 1)).bind
        (fun s => s.UploadData layoutPosition [3] 1)).bind
      (fun s => s.GetAvailableVertexCount) = none ∧
    ((((VertexArrayBuffer.create platformManualBind 6 10).UploadData layoutPosition [1] 1).bind
        (fun s => s.UploadData layoutNormal [2] 1)).bind
        (fun s => s.UploadData layoutPosition [3] 1)).bind
      (fun s => s.GetStartIndexValue) = none := by
  decide

/-! ## The vertex-array object after `Build` -/

/-- The preflush step of `Build` keeps the backend and whether there is a static buffer. -/
theorem preflushStep_frame {s s0 : VertexArrayBuffer} {context : GraphicsContext}
    (h0 : (if s.m_moveToGpuOnBuild && !s.m_isPreflushed then s.PreflushImpl context
           else some s) = some s0) :
    s0.m_impl = s.m_impl ∧ (s0.m_staticBuffers = [] ↔ s.m_staticBuffers = []) ∧
    (s0.m_dynamicBuffers = [] ↔ s.m_dynamicBuffers = []) ∧
    s0.m_indexBuffer.m_currentSize = s.m_indexBuffer.m_currentSize := by
  split at h0
  · simp only [VertexArrayBuffer.PreflushImpl] at h0
    split at h0
    · simp only [Option.some.injEq] at h0
      rw [← h0]
      exact ⟨rfl, moveAllToGPU_eq_nil, moveAllToGPU_eq_nil, rfl⟩
    · exact absurd h0 (by simp)
  · simp only [Option.some.injEq] at h0
    rw [← h0]
    exact ⟨rfl, Iff.rfl, Iff.rfl, rfl⟩

/-- A `Build` that returns leaves a backend with a vertex-array object when the platform
supports vertex-array objects and there is a static buffer, or when the backend already
had one. -/
theorem Build_leaves_VAO {pf : Platform} {s s1 : VertexArrayBuffer}
    {context : GraphicsContext} {program : Option GpuProgram}
    (h : s.Build pf context program = some s1)
    (hpre : (s.m_staticBuffers ≠ [] ∧ pf.vaoSupported = true) ∨
      ∃ impl, s.m_impl = some impl ∧ impl.m_VAO ≠ 0) :
    ∃ impl1, s1.m_impl = some impl1 ∧ impl1.m_VAO ≠ 0 := by
  unfold VertexArrayBuffer.Build at h
  split at h
  · exact absurd h (by simp)
  · rename_i s0 h0
    obtain ⟨hi0, hst0, _, _⟩ := preflushStep_frame h0
    split at h
    · exact absurd h (by simp)
    · rename_i s2 h2
      have hf := createImpl_frame h2
      have hst2 : s2.m_staticBuffers = s0.m_staticBuffers := by rw [hf]
      have hkeep : ∀ impl, s.m_impl = some impl → s2.m_impl = some impl := by
        intro impl hi
        have hi' : s0.m_impl = some impl := by rw [hi0, hi]
        simp only [VertexArrayBuffer.createImpl, hi', Option.some.injEq] at h2
        rw [← h2, hi']
      split at h
      · rename_i hemp
        simp only [Option.some.injEq] at h
        subst h
        rcases hpre with ⟨hne, _⟩ | ⟨impl, hi, hv⟩
        · exfalso
          rw [hst2] at hemp
          exact hne (hst0.mp (List.isEmpty_iff.mp hemp))
        · exact ⟨impl, hkeep impl hi, hv⟩
      · split at h
        · exact absurd h (by simp)
        · rename_i impl himpl
          by_cases hc : impl.m_VAO ≠ 0 ∧ refGet impl.m_program = refGet program
          · have hb : impl.Build pf program = (false, impl) := by
              simp only [GLVertexArrayBufferImpl.Build, if_pos hc]
            simp only [hb, Bool.not_false, if_true, Option.some.injEq] at h
            subst h
            exact ⟨impl, rfl, hc.1⟩
          · cases hv : pf.vaoSupported with
            | false =>
              have hb : impl.Build pf program
                  = (false, { impl with m_program := program }) := by
                simp [GLVertexArrayBufferImpl.Build, if_neg hc, hv]
              simp only [hb, Bool.not_false, if_true, Option.some.injEq] at h
              subst h
              refine ⟨_, rfl, ?_⟩
              rcases hpre with ⟨_, hsup⟩ | ⟨impl', hi, hvao⟩
              · rw [hv] at hsup
                exact absurd hsup (by simp)
              · have := hkeep impl' hi
                rw [himpl, Option.some.injEq] at this
                subst this
                exact hvao
            | true =>
              have hb : impl.Build pf program
                  = (true, { m_VAO := pf.genVertexArray, m_program := program }) := by
                simp [GLVertexArrayBufferImpl.Build, if_neg hc, hv]
              simp only [hb, Bool.not_true, Bool.false_eq_true, if_false] at h
              split at h
              · exact absurd h (by simp)
              · rename_i used hbind
                simp only [VertexArrayBuffer.Bind, GLVertexArrayBufferImpl.Bind, hv,
                  if_true] at hbind
                split at h
                · exact absurd h (by simp)
                · split at h
                  · exact absurd h (by simp)
                  · simp only [Option.some.injEq] at h
                    subst h
                    refine ⟨_, rfl, ?_⟩
                    intro hz
                    simp only at hz
                    simp [hz] at hbind

/-- The calls other than `Build` do not touch the backend. -/
theorem Operation.run_keeps_impl {s s1 : VertexArrayBuffer} {operation : Operation}
    (hop : ∀ pf context program, operation ≠ Operation.Build pf context program)
    (h : operation.run s = some s1) : s1.m_impl = s.m_impl := by
  cases operation with
  | UploadData bindingInfo data count =>
    simp only [Operation.run, VertexArrayBuffer.UploadData] at h
    split at h
    · split at h
      · exact absurd h (by simp)
      · simp only [Option.some.injEq] at h; rw [← h]
    · split at h
      · exact absurd h (by simp)
      · simp only [Option.some.injEq] at h; rw [← h]
  | UploadIndexes data count =>
    simp only [Operation.run, VertexArrayBuffer.UploadIndexes] at h
    split at h
    · split at h
      · exact absurd h (by simp)
      · simp only [Option.some.injEq] at h; rw [← h]
    · exact absurd h (by simp)
  | Preflush context =>
    simp only [Operation.run, VertexArrayBuffer.Preflush, VertexArrayBuffer.PreflushImpl] at h
    split at h
    · split at h
      · simp only [Option.some.injEq] at h; rw [← h]
      · exact absurd h (by simp)
    · simp only [Option.some.injEq] at h; rw [← h]
  | Build pf context program => exact absurd rfl (hop pf context program)
  | Render pf context drawAsLine =>
    simp only [Operation.run] at h
    split at h
    · exact absurd h (by simp)
    · simp only [Option.some.injEq] at h; rw [← h]
  | RenderRange pf context drawAsLine range =>
    simp only [Operation.run] at h
    split at h
    · exact absurd h (by simp)
    · simp only [Option.some.injEq] at h; rw [← h]
  | ApplyMutation pf context indexMutator attrMutator =>
    simp only [Operation.run, VertexArrayBuffer.ApplyMutation] at h
    split at h
    · exact absurd h (by simp)
    · split at h
      · exact absurd h (by simp)
      · split at h
        · split at h
          · exact absurd h (by simp)
          · simp only [Option.some.injEq] at h; rw [← h]
        · split at h
          · exact absurd h (by simp)
          · split at h
            · exact absurd h (by simp)
            · simp only [Option.some.injEq] at h; rw [← h]

/-- No call takes the vertex-array object away from the backend. -/
theorem Operation.run_keeps_VAO {s s1 : VertexArrayBuffer} {operation : Operation}
    (hs : ∃ impl, s.m_impl = some impl ∧ impl.m_VAO ≠ 0)
    (h : operation.run s = some s1) : ∃ impl1, s1.m_impl = some impl1 ∧ impl1.m_VAO ≠ 0 := by
  by_cases hb : ∃ pf context program, operation = Operation.Build pf context program
  · obtain ⟨pf, context, program, rfl⟩ := hb
    exact Build_leaves_VAO h (Or.inr hs)
  · have hk := Operation.run_keeps_impl
      (fun pf context program e => hb ⟨pf, context, program, e⟩) h
    rw [hk]
    exact hs

/-- No sequence of calls takes the vertex-array object away from the backend. -/
theorem runOperations_keeps_VAO (operations : List Operation) :
    ∀ (s s2 : VertexArrayBuffer), (∃ impl, s.m_impl = some impl ∧ impl.m_VAO ≠ 0) →
      runOperations s operations = some s2 →
      ∃ impl2, s2.m_impl = some impl2 ∧ impl2.m_VAO ≠ 0 := by
  induction operations with
  | nil =>
    intro s s2 hs h
    simp only [runOperations, Option.some.injEq] at h
    rw [← h]; exact hs
  | cons operation rest ih =>
    intro s s2 hs h
    simp only [runOperations] at h
    split at h
    · exact absurd h (by simp)
    · rename_i s1 h1
      exact ih s1 s2 (Operation.run_keeps_VAO hs h1) h

/-- The part of C11 the code keeps: on a platform with vertex-array objects, once `Build`
has returned on an orchestrator with at least one static buffer, after any sequence of
further calls that return the backend `Bind` passes its assertion that the vertex-array
object exists. -/
theorem Bind_passes_after_Build_with_static (pf : Platform) (s s1 : VertexArrayBuffer)
    (context : GraphicsContext) (program : Option GpuProgram)
    (hv : pf.vaoSupported = true) (hst : s.m_staticBuffers ≠ [])
    (h : s.Build pf context program = some s1) (operations : List Operation)
    (s2 : VertexArrayBuffer) (h2 : runOperations s1 operations = some s2)
    (pf2 : Platform) (hv2 : pf2.vaoSupported = true) :
    s2.Bind pf2 = some true := by
  obtain ⟨impl2, hi, hvao⟩ := runOperations_keeps_VAO operations s1 s2
    (Build_leaves_VAO h (Or.inl ⟨hst, hv⟩)) h2
  simp [VertexArrayBuffer.Bind, hi, GLVertexArrayBufferImpl.Bind, hv2, hvao]

/-- The defect behind C11 in general: on an OpenGL context, the first `Build` of an
orchestrator without static buffers returns and leaves a backend without vertex-array
object and without program, whatever `glGenVertexArray` would return; on a platform with
vertex-array objects its `Bind` then fails the assertion, so that `ApplyMutation` stops, and
so does every render call that finds a buffer and an index. -/
theorem Build_without_static_leaves_no_VAO (pf : Platform) (s : VertexArrayBuffer)
    (context : GraphicsContext) (program : Option GpuProgram)
    (hst : s.m_staticBuffers = []) (hi : s.m_impl = none)
    (hapi : context.m_apiVersion = ApiVersion.OpenGLES2 ∨
      context.m_apiVersion = ApiVersion.OpenGLES3) :
    ∃ s1, s.Build pf context program = some s1 ∧ s1.m_impl = some ⟨0, none⟩ ∧
      ∀ (pf2 : Platform), pf2.vaoSupported = true →
        s1.Bind pf2 = none ∧
        (∀ context2 indexMutator attrMutator,
          s1.ApplyMutation pf2 context2 indexMutator attrMutator = none) ∧
        (s.m_dynamicBuffers ≠ [] → 0 < s.m_indexBuffer.m_currentSize →
          ∀ context2 drawAsLine range,
            s1.RenderRange pf2 context2 drawAsLine range = none ∧
            s1.Render pf2 context2 drawAsLine = none) := by
  obtain ⟨s0, h0⟩ : ∃ s0, (if s.m_moveToGpuOnBuild && !s.m_isPreflushed then
      s.PreflushImpl context else some s) = some s0 := by
    by_cases hc : (s.m_moveToGpuOnBuild && !s.m_isPreflushed) = true
    · have hp : s.m_isPreflushed = false := by
        simp only [Bool.and_eq_true, Bool.not_eq_true'] at hc
        exact hc.2
      rw [if_pos hc]
      simp [VertexArrayBuffer.PreflushImpl, hp]
    · rw [if_neg hc]
      exact ⟨s, rfl⟩
  obtain ⟨hi0, hst0, hdy0, hidx0⟩ := preflushStep_frame h0
  have hi0' : s0.m_impl = none := by rw [hi0, hi]
  have hst0' : s0.m_staticBuffers = [] := hst0.mpr hst
  have hcreate : s0.createImpl context = some { s0 with m_impl := some ⟨0, none⟩ } := by
    rcases hapi with ha | ha <;>
      simp [VertexArrayBuffer.createImpl, hi0', GraphicsContext.GetApiVersion, ha]
  have hbuild : s.Build pf context program = some { s0 with m_impl := some ⟨0, none⟩ } := by
    unfold VertexArrayBuffer.Build
    rw [h0]
    simp only
    rw [hcreate]
    simp [hst0']
  refine ⟨_, hbuild, rfl, ?_⟩
  intro pf2 hv2
  have hbind : VertexArrayBuffer.Bind pf2 { s0 with m_impl := some ⟨0, none⟩ } = none := by
    simp [VertexArrayBuffer.Bind, GLVertexArrayBufferImpl.Bind, hv2]
  refine ⟨hbind, ?_, ?_⟩
  · intro context2 indexMutator attrMutator
    simp only [VertexArrayBuffer.ApplyMutation, hbind]
  · intro hdy hidx context2 drawAsLine range
    have hdy0' : s0.m_dynamicBuffers ≠ [] := fun e => hdy (hdy0.mp e)
    have hcond : (!((s0.m_staticBuffers).isEmpty && (s0.m_dynamicBuffers).isEmpty)
        && decide (0 < s0.m_indexBuffer.m_currentSize)) = true := by
      have hd : s0.m_dynamicBuffers.isEmpty = false := by
        cases hl : s0.m_dynamicBuffers with
        | nil => exact absurd hl hdy0'
        | cons _ _ => rfl
      rw [hidx0]
      simp [hd, hidx]
    have hrr : ∀ range2, VertexArrayBuffer.RenderRange pf2
        { s0 with m_impl := some ⟨0, none⟩ } context2 drawAsLine range2 = none := by
      intro range2
      unfold VertexArrayBuffer.RenderRange
      simp only [VertexArrayBuffer.GetIndexCount, VertexArrayBuffer.GetIndexBuffer,
        DataBuffer.GetCurrentSize, gt_iff_lt]
      rw [if_pos hcond, hbind]
    exact ⟨hrr range, hrr _⟩

/-- C11 at the failing input: on a platform with vertex-array objects whose
`glGenVertexArray` returns the non-zero handle 7, `Build` has returned on an orchestrator
with one dynamic buffer, no static buffer and three indices, and the backend still has no
vertex-array object (`m_VAO` is 0): the backend `Bind` fails its assertion, and with it
`Render`, `RenderRange` and `ApplyMutation`. -/
theorem Bind_fails_after_Build_without_static :
    platformCachedState.vaoSupported = true ∧ platformCachedState.genVertexArray ≠ 0 ∧
    sampleDynamicOnly = some sampleDynamicOnlyState ∧
    sampleDynamicOnlyState.m_impl = some ⟨0, none⟩ ∧
    sampleDynamicOnlyState.Bind platformCachedState = none ∧
    sampleDynamicOnlyState.Render platformCachedState contextES3 false = none ∧
    sampleDynamicOnlyState.RenderRange platformCachedState contextES3 false ⟨0, 3⟩ = none ∧
    sampleDynamicOnlyState.ApplyMutation platformCachedState contextES3 none none = none := by
  decide

end dp
